import Mathlib

/-!
rovo2api: credential pool and failover relay.

A shallow embedding of `common/config/config.go`, `controller/chat.go` and
`model/openai.go`.  Process-wide variables become fields of an explicit
`Store`, configuration read from the environment becomes a `Config`, and the
collaborators outside the repository (clock, random source, JSON codec,
terminal classifiers, transport) are parameters.
-/

namespace Rovo2api

/-! ## Go standard library: `strings` -/

/-- Go `unicode.IsSpace`: the Latin-1 spaces and the Unicode White_Space code points. -/
def isSpace (c : Char) : Bool :=
  let n := c.toNat
  (0x09 ≤ n && n ≤ 0x0D) || n == 0x20 || n == 0x85 || n == 0xA0 || n == 0x1680 ||
  (0x2000 ≤ n && n ≤ 0x200A) || n == 0x2028 || n == 0x2029 || n == 0x202F ||
  n == 0x205F || n == 0x3000

/-- Characters of `strings.TrimSpace`: leading and trailing white space removed. -/
def trimChars (cs : List Char) : List Char :=
  ((cs.dropWhile isSpace).reverse.dropWhile isSpace).reverse

/-- Go `strings.TrimSpace`. -/
def TrimSpace (s : String) : String :=
  String.mk (trimChars s.data)

/-- Go `strings.TrimPrefix` on characters. -/
def trimPrefixChars (pre cs : List Char) : List Char :=
  if pre.isPrefixOf cs then cs.drop pre.length else cs

/-- Go `strings.TrimPrefix`. -/
def TrimPrefix (s pre : String) : String :=
  String.mk (trimPrefixChars pre.data s.data)

/-- Go `strings.Split` for a one-character separator, on characters. -/
def splitChars (sep : Char) : List Char → List (List Char)
  | [] => [[]]
  | c :: cs =>
    if c = sep then [] :: splitChars sep cs
    else
      match splitChars sep cs with
      | [] => [[c]]
      | p :: ps => (c :: p) :: ps

/-- Go `strings.Split(s, sep)` where `sep` is the one-character string of `sep`. -/
def Split (s : String) (sep : Char) : List String :=
  (splitChars sep s.data).map String.mk

/-- Go `strings.Join`. -/
def Join (parts : List String) (sep : String) : String :=
  sep.intercalate parts

/-- Go `strings.Replace(s, old, new, 1)` on characters: the first occurrence only. -/
def replaceFirstChars (old new : List Char) : List Char → List Char
  | [] => if old = [] then new else []
  | c :: cs =>
    if old.isPrefixOf (c :: cs) then new ++ (c :: cs).drop old.length
    else c :: replaceFirstChars old new cs

/-- Go `strings.Replace(s, old, new, 1)`. -/
def ReplaceFirst (s old new : String) : String :=
  String.mk (replaceFirstChars old.data new.data s.data)

/-! ## `common/config/config.go` -/

/-- Instants of `time.Time`, counted in nanoseconds; `t.After(u)` is `u < t`
and `t.Add(d)` is `t + d` for a duration of `d` nanoseconds (exact for the
instants a clock returns). -/
abbrev Time := Int

/-- Two's-complement wrap of an integer into the range of `int64`. -/
def wrapInt64 (n : Int) : Int :=
  (n + 9223372036854775808) % 18446744073709551616 - 9223372036854775808

/-- `time.Duration(n) * time.Second` for `n` in the range of `int`: a count of
nanoseconds in `int64`; the product wraps. -/
def secondsDuration (n : Int) : Int :=
  wrapInt64 (n * 1000000000)

/-- `t.Unix()`: whole seconds. -/
def unixSeconds (t : Time) : Int :=
  t / 1000000000

/-- Environment configuration read once at start-up (`config` package variables
that are never reassigned). -/
structure Config where
  CustomHeaderKeyEnabled : Bool
  RateLimitCookieLockDuration : Int
  PRE_MESSAGES_JSON : String

/-- The mutable process-wide state: `RVCookies` and the `rateLimitCookies`
map (`sync.Map` from cookie to `RateLimitCookie.ExpirationTime`). -/
structure Store where
  RVCookies : List String
  rateLimitCookies : String → Option Time

/-- `sync.Map.Store`. -/
def syncStore (m : String → Option Time) (k : String) (v : Time) : String → Option Time :=
  fun x => if x = k then some v else m x

/-- `sync.Map.Delete`. -/
def syncDelete (m : String → Option Time) (k : String) : String → Option Time :=
  fun x => if x = k then none else m x

/-- `AddRateLimitCookie`. -/
def AddRateLimitCookie (cfg : Config) (cookie : String) (expirationTime : Time)
    (st : Store) : Store :=
  if cfg.CustomHeaderKeyEnabled then st
  else { st with rateLimitCookies := syncStore st.rateLimitCookies cookie expirationTime }

/-- `CookieManager` (the mutex is not part of the sequential state). -/
structure CookieManager where
  Cookies : List String
  currentIndex : Nat

/-- `GetRVCookies`: a copy of the process-wide list. -/
def GetRVCookies (st : Store) : List String :=
  st.RVCookies

/-- The `for _, cookie := range GetRVCookies()` loop of `NewCookieManager`:
`rl` is the quarantine map, `validCookies` the slice built so far.  The
stored values all have type `RateLimitCookie`, so the failed type assertion
branch does not arise. -/
def NewCookieManager.loop (now : Time) :
    List String → (String → Option Time) → List String →
      List String × (String → Option Time)
  | [], rl, validCookies => (validCookies, rl)
  | cookie :: rest, rl, validCookies =>
    let cookie := TrimSpace cookie
    if cookie = "" then NewCookieManager.loop now rest rl validCookies
    else
      match rl cookie with
      | some expirationTime =>
        if now < expirationTime then NewCookieManager.loop now rest rl validCookies
        else NewCookieManager.loop now rest (syncDelete rl cookie) (validCookies ++ [cookie])
      | none => NewCookieManager.loop now rest rl (validCookies ++ [cookie])

/-- `NewCookieManager`, with the clock reading `now` and the store it reads and
purges made explicit. -/
def NewCookieManager (now : Time) (st : Store) : CookieManager × Store :=
  let r := NewCookieManager.loop now (GetRVCookies st) st.rateLimitCookies []
  ({ Cookies := r.1, currentIndex := 0 }, { st with rateLimitCookies := r.2 })

/-- `CookieManager.GetRandomCookie`; `rand` is the raw draw behind
`rand.Intn(len(cm.Cookies))`. -/
def GetRandomCookie (rand : Nat) (cm : CookieManager) : Except String (String × CookieManager) :=
  if h : cm.Cookies.length = 0 then .error "no cookies available"
  else
    let randomIndex := rand % cm.Cookies.length
    .ok (cm.Cookies.get ⟨randomIndex, Nat.mod_lt _ (Nat.pos_of_ne_zero h)⟩,
         { cm with currentIndex := randomIndex })

/-- `CookieManager.GetNextCookie`. -/
def GetNextCookie (cm : CookieManager) : Except String (String × CookieManager) :=
  if h : cm.Cookies.length = 0 then .error "no cookies available"
  else
    let i := (cm.currentIndex + 1) % cm.Cookies.length
    .ok (cm.Cookies.get ⟨i, Nat.mod_lt _ (Nat.pos_of_ne_zero h)⟩, { cm with currentIndex := i })

/-- The filtering loop of `RemoveCookie`. -/
def RemoveCookie.loop (cookieToRemove : String) : List String → List String → List String
  | [], newCookies => newCookies
  | cookie :: rest, newCookies =>
    if cookie ≠ cookieToRemove then RemoveCookie.loop cookieToRemove rest (newCookies ++ [cookie])
    else RemoveCookie.loop cookieToRemove rest newCookies

/-- `RemoveCookie`. -/
def RemoveCookie (cfg : Config) (cookieToRemove : String) (st : Store) : Store :=
  if cfg.CustomHeaderKeyEnabled then st
  else { st with RVCookies := RemoveCookie.loop cookieToRemove (GetRVCookies st) [] }

/-- The results of `k` consecutive `GetNextCookie` calls and the manager they leave. -/
def nextCookies : Nat → CookieManager → List (Except String String) × CookieManager
  | 0, cm => ([], cm)
  | k + 1, cm =>
    match GetNextCookie cm with
    | .ok (c, cm1) => let r := nextCookies k cm1; (.ok c :: r.1, r.2)
    | .error e => let r := nextCookies k cm; (.error e :: r.1, r.2)

/-! ## Dynamic values -/

/-- Values of Go `interface{}` as `encoding/json` produces them: `nil`, `bool`,
`float64`, `string`, `[]interface{}` and `map[string]interface{}`.  A nil and an
empty slice are both `arr []`. -/
inductive Json where
  | null
  | bool (b : Bool)
  | num (q : Rat)
  | str (s : String)
  | arr (xs : List Json)
  | obj (kvs : List (String × Json))

/-- Indexing a `map[string]interface{}`: the zero value `nil`, and `ok = false`
(`none`), for an absent key. -/
def mapGet (kvs : List (String × Json)) (k : String) : Option Json :=
  match kvs.find? (fun kv => kv.1 = k) with
  | some kv => some kv.2
  | none => none

/-- Type assertion `v.(map[string]interface{})` in its two-result form. -/
def asMap : Option Json → Option (List (String × Json))
  | some (.obj kvs) => some kvs
  | _ => none

/-- Type assertion `v.([]interface{})` in its two-result form. -/
def asSlice : Option Json → Option (List Json)
  | some (.arr xs) => some xs
  | _ => none

/-- Type assertion `v.(string)` in its two-result form. -/
def asString : Option Json → Option String
  | some (.str s) => some s
  | _ => none

/-! ## `model/openai.go` -/

/-- `OpenAIChatMessage`. -/
structure OpenAIChatMessage where
  Role : String
  Content : Json

/-- `OpenAIChatCompletionRequest`; the `float64` fields are carried as rationals. -/
structure OpenAIChatCompletionRequest where
  Model : String
  Stream : Bool
  Messages : List OpenAIChatMessage
  MaxTokens : Int
  Temperature : Rat
  FrequencyPenalty : Rat
  PresencePenalty : Rat
  TopP : Rat

/-- `OpenAIMessage`. -/
structure OpenAIMessage where
  Role : String
  Content : String

/-- `OpenAIDelta`. -/
structure OpenAIDelta where
  Content : String
  Role : String

/-- `OpenAIChoice`. -/
structure OpenAIChoice where
  Index : Int
  Message : OpenAIMessage
  FinishReason : Option String
  Delta : OpenAIDelta

/-- `OpenAIUsage`. -/
structure OpenAIUsage where
  PromptTokens : Int
  CompletionTokens : Int
  TotalTokens : Int

/-- `OpenAIChatCompletionResponse` (the fields the handlers set). -/
structure OpenAIChatCompletionResponse where
  ID : String
  Object : String
  Created : Int
  Model : String
  Choices : List OpenAIChoice
  Usage : OpenAIUsage

/-- `OpenAIError`. -/
structure OpenAIError where
  Message : String
  Type_ : String
  Code : String

/-- The backward scan of `PrependMessagesFromJSON`: `n` is `i + 1` for the index
`i` examined next; the result is `insertIndex`. -/
def PrependMessagesFromJSON.insertIndex (msgs : List OpenAIChatMessage) : Nat → Nat
  | 0 => 0
  | i + 1 =>
    match msgs[i]? with
    | some m => if m.Role = "system" then i + 1 else PrependMessagesFromJSON.insertIndex msgs i
    | none => PrependMessagesFromJSON.insertIndex msgs i

/-- `PrependMessagesFromJSON`; `unmarshal` is `json.Unmarshal` into
`[]OpenAIChatMessage`.  The request is returned as the receiver is left. -/
def PrependMessagesFromJSON (unmarshal : String → Except String (List OpenAIChatMessage))
    (r : OpenAIChatCompletionRequest) (jsonString : String) :
    Except String OpenAIChatCompletionRequest :=
  match unmarshal jsonString with
  | .error err => .error err
  | .ok newMessages =>
    let insertIndex := PrependMessagesFromJSON.insertIndex r.Messages r.Messages.length
    .ok { r with Messages :=
      r.Messages.take insertIndex ++ (newMessages ++ r.Messages.drop insertIndex) }

/-- The loop of `RemoveEmptyContentMessages`. -/
def RemoveEmptyContentMessages.loop :
    List OpenAIChatMessage → List OpenAIChatMessage → List OpenAIChatMessage
  | [], filteredMessages => filteredMessages
  | msg :: rest, filteredMessages =>
    match msg.Content with
    | .null => RemoveEmptyContentMessages.loop rest filteredMessages
    | .str "" => RemoveEmptyContentMessages.loop rest filteredMessages
    | .arr [] => RemoveEmptyContentMessages.loop rest filteredMessages
    | _ => RemoveEmptyContentMessages.loop rest (filteredMessages ++ [msg])

/-- `RemoveEmptyContentMessages`. -/
def RemoveEmptyContentMessages (r : OpenAIChatCompletionRequest) : OpenAIChatCompletionRequest :=
  if r.Messages.length = 0 then r
  else { r with Messages := RemoveEmptyContentMessages.loop r.Messages [] }

/-! ## `common/constants.go` -/

/-- `ModelInfo`. -/
structure ModelInfo where
  Model : String
  MaxTokens : Int

/-- `ModelRegistry`. -/
def ModelRegistry : List (String × ModelInfo) :=
  [("anthropic:claude-3-5-sonnet-v2@20241022", ⟨"claude-3.5-sonnet-v2@20241022", 200000⟩),
   ("anthropic:claude-3-7-sonnet@20250219", ⟨"claude-3.7-sonnet@20250219", 200000⟩),
   ("anthropic:claude-sonnet-4@20250514", ⟨"claude-sonnet-4@20250514", 200000⟩),
   ("anthropic:claude-opus-4@20250514", ⟨"claude-opus-4@20250514", 200000⟩),
   ("bedrock:anthropic.claude-3-5-sonnet-20241022-v2:0",
      ⟨"anthropic.claude-3-5-sonnet-20241022-v2:0", 200000⟩),
   ("bedrock:anthropic.claude-3-7-sonnet-20250219-v1:0",
      ⟨"anthropic.claude-3-7-sonnet-20250219-v1:0", 200000⟩),
   ("bedrock:anthropic.claude-sonnet-4-20250514-v1:0",
      ⟨"anthropic.claude-sonnet-4-20250514-v1:0", 200000⟩),
   ("bedrock:anthropic.claude-opus-4-20250514-v1:0",
      ⟨"anthropic.claude-opus-4-20250514-v1:0", 200000⟩)]

/-- `GetModelInfo`. -/
def GetModelInfo (modelName : String) : Option ModelInfo :=
  match ModelRegistry.find? (fun kv => kv.1 = modelName) with
  | some kv => some kv.2
  | none => none

/-! ## `controller/chat.go`: collaborators and outputs -/

/-- The collaborators of the controller that live outside the repository
sources: the JSON codec, the terminal classifiers of package `common`, the
token counter, `fmt` and `time` formatting. -/
structure Env where
  /-- `json.Unmarshal` of a frame into `map[string]interface{}`. -/
  UnmarshalEvent : String → Except String (List (String × Json))
  /-- `json.Unmarshal` into `[]OpenAIChatMessage`. -/
  UnmarshalMessages : String → Except String (List OpenAIChatMessage)
  /-- `json.Marshal` of the upstream request body. -/
  MarshalBody : Json → Except String String
  /-- `json.Marshal` of a completion response. -/
  MarshalResponse : OpenAIChatCompletionResponse → Except String String
  IsUsageLimitExceeded : String → Bool
  IsServerError : String → Bool
  IsNotLogin : String → Bool
  IsRateLimit : String → Bool
  /-- `model.CountTokenText(text, modelName)`. -/
  CountTokenText : String → String → Int
  /-- `fmt.Sprintf("%v", v)`. -/
  Sprint : Json → String
  /-- `t.Format("20060102150405")`. -/
  FormatTime : Time → String

/-- One item of the transport channel, `cycletls.SSEResponse`. -/
structure SSEResponse where
  Status : Int
  Data : String
  Done : Bool

/-- What one inbound request meets: its `Authorization` header, the random
draws, the clock (`start` while the view is built, `clock k` while the
upstream call number `k` is handled), the outcome of each `DoSSE` call (an
error, or the items the channel delivers before it is closed) and, for the
streaming handler, how many times `gin.Context.Stream` finds the client still
connected. -/
structure Run where
  Authorization : String
  randKey : Nat
  randCookie : Nat
  start : Time
  clock : Nat → Time
  DoSSE : Nat → Except String (List SSEResponse)
  clientPolls : Nat

/-- The payload of a `c.JSON` call. -/
inductive Body where
  /-- `gin.H` with the single key `error`. -/
  | error (msg : String)
  | completion (r : OpenAIChatCompletionResponse)
  | openAIError (e : OpenAIError)

/-- A write to the client. -/
inductive ClientWrite where
  /-- `c.JSON(status, body)`. -/
  | json (status : Nat) (body : Body)
  /-- `c.SSEvent("", data)`. -/
  | sse (data : String)

/-- What a handler leaves behind: the store, the writes to the client in
order, the upstream requests issued (cookie and body) in order, and whether
it ended in a run-time panic. -/
structure Outcome where
  store : Store
  writes : List ClientWrite
  requests : List (String × String)
  panicked : Bool

/-- How the loop over the channel is left. -/
inductive Exit where
  /-- `return` inside the loop. -/
  | returned
  /-- `break SSELoop` with `isRateLimit = true`. -/
  | retry
  /-- The channel was closed; `isRateLimit` is still false. -/
  | drained
  /-- A failed type assertion. -/
  | panicked

/-- The `(string, bool)` result of a frame extractor with the writes it made. -/
structure Extract where
  delta : String
  shouldContinue : Bool
  writes : List ClientWrite

def errServerErrMsg : String := "Service Unavailable"

/-- `fmt.Sprintf(responseIDFormat, time.Now().Format("20060102150405"))`. -/
def responseID (env : Env) (now : Time) : String :=
  "chatcmpl-" ++ env.FormatTime now

/-! ## `controller/chat.go`: request direction -/

/-- `transformModelId`. -/
def transformModelId (modelId : String) : String :=
  let parts := Split modelId ':'
  if parts.length > 1 then Join (parts.drop 1) ":" else modelId

/-- The item `{"type": "text", "text": text}`. -/
def textItem (text : String) : Json :=
  .obj [("type", .str "text"), ("text", .str text)]

/-- The item `{"type": "image", "image": {"url": url}}`. -/
def imageItem (url : String) : Json :=
  .obj [("type", .str "image"), ("image", .obj [("url", .str url)])]

/-- The loop of `transformMessages` over an array content. -/
def transformMessages.items : List Json → List Json → List Json
  | [], contentItems => contentItems
  | item :: rest, contentItems =>
    match item with
    | .obj itemMap =>
      let itemType := (asString (mapGet itemMap "type")).getD ""
      if itemType = "text" then
        let text := (asString (mapGet itemMap "text")).getD ""
        transformMessages.items rest (contentItems ++ [textItem text])
      else if itemType = "image_url" then
        match asMap (mapGet itemMap "image_url") with
        | some imageData =>
          let url := (asString (mapGet imageData "url")).getD ""
          transformMessages.items rest (contentItems ++ [imageItem url])
        | none => transformMessages.items rest contentItems
      else transformMessages.items rest contentItems
    | _ => transformMessages.items rest contentItems

/-- The body of the loop of `transformMessages`: one message. -/
def transformMessages.message (sprint : Json → String) (msg : OpenAIChatMessage) : Json :=
  let contentItems :=
    match msg.Content with
    | .str content => [textItem content]
    | .arr content => transformMessages.items content []
    | other => [textItem (sprint other)]
  .obj [("role", .str msg.Role), ("content", .arr contentItems)]

/-- The loop of `transformMessages`. -/
def transformMessages.loop (sprint : Json → String) :
    List OpenAIChatMessage → List Json → List Json
  | [], result => result
  | msg :: rest, result =>
    transformMessages.loop sprint rest (result ++ [transformMessages.message sprint msg])

/-- `transformMessages`. -/
def transformMessages (sprint : Json → String) (messages : List OpenAIChatMessage) : List Json :=
  transformMessages.loop sprint messages []

/-- `createRequestBody`: the body, and the request as the call leaves it (the
handlers pass `&openAIReq`). -/
def createRequestBody (env : Env) (cfg : Config) (openAIReq : OpenAIChatCompletionRequest) :
    Except String (Json × OpenAIChatCompletionRequest) :=
  let prepended : Except String OpenAIChatCompletionRequest :=
    if cfg.PRE_MESSAGES_JSON ≠ "" then
      match PrependMessagesFromJSON env.UnmarshalMessages openAIReq cfg.PRE_MESSAGES_JSON with
      | .error err =>
        .error ("PrependMessagesFromJSON err: " ++ err ++ " JSON:" ++ cfg.PRE_MESSAGES_JSON)
      | .ok r => .ok r
    else .ok openAIReq
  match prepended with
  | .error err => .error err
  | .ok r =>
    let r := if r.MaxTokens ≤ 1 then { r with MaxTokens := 8192 } else r
    let formattedMessages := transformMessages env.Sprint r.Messages
    .ok (.obj [
      ("request_payload", .obj [
        ("messages", .arr formattedMessages),
        ("stream", .str "true"),
        ("temperature", .num r.Temperature),
        ("max_tokens", .num r.MaxTokens),
        ("frequency_penalty", .num r.FrequencyPenalty),
        ("presence_penalty", .num r.PresencePenalty),
        ("top_p", .num r.TopP)]),
      ("platform_attributes", .obj [("model", .str (transformModelId r.Model))])], r)

/-- `rovoapi.MakeStreamChatRequest`: the channel of the upstream call number
`k`, or the wrapped transport error. -/
def MakeStreamChatRequest (run : Run) (k : Nat) : Except String (List SSEResponse) :=
  match run.DoSSE k with
  | .error err => .error ("Failed to make stream request: " ++ err)
  | .ok sseChan => .ok sseChan

/-! ## `controller/chat.go`: response direction -/

/-- `createStreamResponse`. -/
def createStreamResponse (env : Env) (now : Time) (responseId modelName jsonData : String)
    (delta : OpenAIDelta) (finishReason : Option String) : OpenAIChatCompletionResponse :=
  let promptTokens := env.CountTokenText jsonData modelName
  let completionTokens := env.CountTokenText delta.Content modelName
  { ID := responseId
    Object := "chat.completion.chunk"
    Created := unixSeconds now
    Model := modelName
    Choices := [{ Index := 0, Message := ⟨"", ""⟩, FinishReason := finishReason, Delta := delta }]
    Usage := ⟨promptTokens, completionTokens, promptTokens + completionTokens⟩ }

/-- `sendSSEvent`: the marshalling error, or the frame written. -/
def sendSSEvent (env : Env) (response : OpenAIChatCompletionResponse) :
    Except String (List ClientWrite) :=
  match env.MarshalResponse response with
  | .error err => .error err
  | .ok jsonResp => .ok [.sse (" " ++ jsonResp)]

/-- `handleDelta`. -/
def handleDelta (env : Env) (now : Time) (delta responseId modelName jsonData : String) :
    Except String (List ClientWrite) :=
  sendSSEvent env (createStreamResponse env now responseId modelName jsonData ⟨delta, "assistant"⟩ none)

/-- `handleMessageResult`: the writes it makes (its result is always false). -/
def handleMessageResult (env : Env) (now : Time) (responseId modelName jsonData : String) :
    List ClientWrite :=
  let streamResp :=
    { createStreamResponse env now responseId modelName jsonData ⟨"", "assistant"⟩ (some "stop")
      with Usage := ⟨0, 0, 0 + 0⟩ }
  match sendSSEvent env streamResp with
  | .error _ => []
  | .ok w => w ++ [.sse " [DONE]"]

/-- The test `hasFinishReason && finishReason != nil && finishReason.(string) == "end_turn"`;
the one-result type assertion panics on a value that is not a string. -/
def isEndTurn : Option Json → Except String Bool
  | none => .ok false
  | some .null => .ok false
  | some (.str s) => .ok (s == "end_turn")
  | some _ => .error "interface conversion: interface {} is not string"

/-- The loop of `processStreamData` over the content array. -/
def processStreamData.items (env : Env) (now : Time) (responseId modelName jsonData : String) :
    List Json → Extract
  | [] => ⟨"", true, []⟩
  | item :: rest =>
    match item with
    | .obj contentItem =>
      match asString (mapGet contentItem "type") with
      | some contentType =>
        if contentType ≠ "text" then
          processStreamData.items env now responseId modelName jsonData rest
        else
          match asString (mapGet contentItem "text") with
          | some text =>
            match handleDelta env now text responseId modelName jsonData with
            | .error err => ⟨"", false, [.json 500 (.error err)]⟩
            | .ok w => ⟨text, true, w⟩
          | none => processStreamData.items env now responseId modelName jsonData rest
      | none => processStreamData.items env now responseId modelName jsonData rest
    | _ => processStreamData.items env now responseId modelName jsonData rest

/-- `processStreamData`; an error is a run-time panic. -/
def processStreamData (env : Env) (now : Time) (data responseId modelName jsonData : String) :
    Except String Extract :=
  let data := TrimSpace data
  let data := TrimPrefix data "data: "
  if data = "[DONE]" then .ok ⟨"", false, []⟩
  else
    match env.UnmarshalEvent data with
    | .error err => .ok ⟨"", false, [.json 500 (.error err)]⟩
    | .ok event =>
      match asMap (mapGet event "response_payload") with
      | none => .ok ⟨"", false, []⟩
      | some responsePayload =>
        match asSlice (mapGet responsePayload "choices") with
        | none => .ok ⟨"", false, []⟩
        | some [] => .ok ⟨"", false, []⟩
        | some (.obj choice :: _) =>
          match isEndTurn (mapGet choice "finish_reason") with
          | .error p => .error p
          | .ok true => .ok ⟨"", false, handleMessageResult env now responseId modelName jsonData⟩
          | .ok false =>
            match asMap (mapGet choice "message") with
            | none => .ok ⟨"", true, []⟩
            | some message =>
              match asSlice (mapGet message "content") with
              | none => .ok ⟨"", true, []⟩
              | some contentArray =>
                .ok (processStreamData.items env now responseId modelName jsonData contentArray)
        | some (_ :: _) => .ok ⟨"", false, []⟩

/-- The loop of `processNoStreamData` over the content array. -/
def processNoStreamData.text : List Json → String → String
  | [], contentText => contentText
  | item :: rest, contentText =>
    match item with
    | .obj contentItem =>
      match asString (mapGet contentItem "type") with
      | some contentType =>
        if contentType ≠ "text" then processNoStreamData.text rest contentText
        else
          match asString (mapGet contentItem "text") with
          | some text => processNoStreamData.text rest (contentText ++ text)
          | none => processNoStreamData.text rest contentText
      | none => processNoStreamData.text rest contentText
    | _ => processNoStreamData.text rest contentText

/-- `processNoStreamData`; an error is a run-time panic. -/
def processNoStreamData (env : Env) (data : String) : Except String Extract :=
  let data := TrimSpace data
  let data := TrimPrefix data "data: "
  if data = "[DONE]" then .ok ⟨"", false, []⟩
  else
    match env.UnmarshalEvent data with
    | .error err => .ok ⟨"", false, [.json 500 (.error err)]⟩
    | .ok event =>
      match asMap (mapGet event "response_payload") with
      | none => .ok ⟨"", false, []⟩
      | some responsePayload =>
        match asSlice (mapGet responsePayload "choices") with
        | none => .ok ⟨"", false, []⟩
        | some [] => .ok ⟨"", false, []⟩
        | some (.obj choice :: _) =>
          match isEndTurn (mapGet choice "finish_reason") with
          | .error p => .error p
          | .ok true => .ok ⟨"", false, []⟩
          | .ok false =>
            match asMap (mapGet choice "message") with
            | none => .ok ⟨"", true, []⟩
            | some message =>
              match asSlice (mapGet message "content") with
              | none => .ok ⟨"", true, []⟩
              | some contentArray => .ok ⟨processNoStreamData.text contentArray "", true, []⟩
        | some (_ :: _) => .ok ⟨"", false, []⟩

/-! ## `controller/chat.go`: the handlers -/

/-- The `CustomHeaderKeyEnabled` block shared by both handlers: `none` when the
`Authorization` header is empty (the handler answers 400), otherwise the
manager whose `Cookies` hold the one selected key. -/
def overrideCookies (cfg : Config) (run : Run) (cookieManager : CookieManager) :
    Option CookieManager :=
  if cfg.CustomHeaderKeyEnabled then
    let cookie := run.Authorization
    if cookie = "" then none
    else
      let cookie := ReplaceFirst cookie "Bearer " ""
      let customKeysList := Split cookie ','
      if h : customKeysList.length > 0 then
        let randomIndex := run.randKey % customKeysList.length
        let selectedKey := TrimSpace (customKeysList.get ⟨randomIndex, Nat.mod_lt _ h⟩)
        some { cookieManager with Cookies := [selectedKey] }
      else some cookieManager
  else some cookieManager

/-- The aggregate response of `handleNonStreamRequest`. -/
def completionResponse (env : Env) (now : Time) (openAIReq : OpenAIChatCompletionRequest)
    (jsonData assistantMsgContent : String) : OpenAIChatCompletionResponse :=
  let promptTokens := env.CountTokenText jsonData openAIReq.Model
  let completionTokens := env.CountTokenText assistantMsgContent openAIReq.Model
  { ID := responseID env now
    Object := "chat.completion"
    Created := unixSeconds now
    Model := openAIReq.Model
    Choices := [{ Index := 0, Message := ⟨"assistant", assistantMsgContent⟩,
                  FinishReason := some "stop", Delta := ⟨"", ""⟩ }]
    Usage := ⟨promptTokens, completionTokens, promptTokens + completionTokens⟩ }

/-- The `SSELoop` of `handleNonStreamRequest` over the items of the channel. -/
def handleNonStreamRequest.sseLoop (env : Env) (cfg : Config)
    (openAIReq : OpenAIChatCompletionRequest) (now : Time) (cookie jsonData : String) :
    List SSEResponse → String → Store → List ClientWrite → Exit × Store × List ClientWrite
  | [], _, st, out => (.drained, st, out)
  | response :: rest, assistantMsgContent, st, out =>
    let data := response.Data
    if data = "" then
      handleNonStreamRequest.sseLoop env cfg openAIReq now cookie jsonData rest
        assistantMsgContent st out
    else if response.Done then
      if env.IsUsageLimitExceeded data then (.retry, RemoveCookie cfg cookie st, out)
      else if env.IsServerError data then
        (.returned, st, out ++ [.json 500 (.error errServerErrMsg)])
      else if env.IsNotLogin data then (.retry, st, out)
      else if env.IsRateLimit data then
        (.retry, AddRateLimitCookie cfg cookie
          (now + secondsDuration cfg.RateLimitCookieLockDuration) st, out)
      else (.returned, st, out)
    else
      match processNoStreamData env data with
      | .error _ => (.panicked, st, out)
      | .ok r =>
        if !r.shouldContinue then
          (.returned, st, out ++ r.writes ++
            [.json 200 (.completion (completionResponse env now openAIReq jsonData
              assistantMsgContent))])
        else
          handleNonStreamRequest.sseLoop env cfg openAIReq now cookie jsonData rest
            (assistantMsgContent ++ r.delta) st (out ++ r.writes)

/-- The attempt loop of `handleNonStreamRequest`; the first argument is
`maxRetries - attempt`. -/
def handleNonStreamRequest.attempts (env : Env) (cfg : Config) (run : Run) :
    Nat → String → CookieManager → OpenAIChatCompletionRequest → Outcome → Outcome
  | 0, _, _, _, o =>
    { o with writes := o.writes ++ [.json 500 (.error "All cookies are temporarily unavailable.")] }
  | remaining + 1, cookie, cookieManager, openAIReq, o =>
    match createRequestBody env cfg openAIReq with
    | .error err => { o with writes := o.writes ++ [.json 500 (.error err)] }
    | .ok (requestBody, openAIReq) =>
      match env.MarshalBody requestBody with
      | .error _ =>
        { o with writes := o.writes ++ [.json 500 (.error "Failed to marshal request body")] }
      | .ok jsonData =>
        let k := o.requests.length
        let o := { o with requests := o.requests ++ [(cookie, jsonData)] }
        match MakeStreamChatRequest run k with
        | .error err => { o with writes := o.writes ++ [.json 500 (.error err)] }
        | .ok sseChan =>
          match handleNonStreamRequest.sseLoop env cfg openAIReq (run.clock k) cookie jsonData
              sseChan "" o.store o.writes with
          | (.returned, st, out) => { o with store := st, writes := out }
          | (.drained, st, out) => { o with store := st, writes := out }
          | (.panicked, st, out) => { o with store := st, writes := out, panicked := true }
          | (.retry, st, out) =>
            match GetNextCookie cookieManager with
            | .error err =>
              { o with store := st, writes := out ++ [.json 500 (.error err)] }
            | .ok (cookie, cookieManager) =>
              handleNonStreamRequest.attempts env cfg run remaining cookie cookieManager
                openAIReq { o with store := st, writes := out }

/-- `handleNonStreamRequest`. -/
def handleNonStreamRequest (env : Env) (cfg : Config) (run : Run)
    (openAIReq : OpenAIChatCompletionRequest) (st : Store) : Outcome :=
  let built := NewCookieManager run.start st
  match overrideCookies cfg run built.1 with
  | none =>
    ⟨built.2, [.json 400 (.error "Authorization header is required")], [], false⟩
  | some cookieManager =>
    let maxRetries := cookieManager.Cookies.length
    match GetRandomCookie run.randCookie cookieManager with
    | .error err => ⟨built.2, [.json 500 (.error err)], [], false⟩
    | .ok (cookie, cookieManager) =>
      handleNonStreamRequest.attempts env cfg run maxRetries cookie cookieManager openAIReq
        ⟨built.2, [], [], false⟩

/-- The `SSELoop` of `handleStreamRequest` over the items of the channel. -/
def handleStreamRequest.sseLoop (env : Env) (cfg : Config)
    (openAIReq : OpenAIChatCompletionRequest) (now : Time)
    (cookie responseId jsonData : String) :
    List SSEResponse → Store → List ClientWrite → Exit × Store × List ClientWrite
  | [], st, out => (.drained, st, out)
  | response :: rest, st, out =>
    if response.Status = 403 then
      (.retry, RemoveCookie cfg cookie st, out ++ [.json 403 (.error "Forbidden")])
    else if response.Status = 401 then (.retry, RemoveCookie cfg cookie st, out)
    else
      let data := response.Data
      if data = "" then
        handleStreamRequest.sseLoop env cfg openAIReq now cookie responseId jsonData rest st out
      else if response.Done then
        if env.IsUsageLimitExceeded data then (.retry, RemoveCookie cfg cookie st, out)
        else if env.IsServerError data then
          (.returned, st, out ++ [.json 500 (.error errServerErrMsg)])
        else if env.IsNotLogin data then (.retry, st, out)
        else if env.IsRateLimit data then
          (.retry, AddRateLimitCookie cfg cookie
          (now + secondsDuration cfg.RateLimitCookieLockDuration) st, out)
        else (.returned, st, out)
      else
        match processStreamData env now data responseId openAIReq.Model jsonData with
        | .error _ => (.panicked, st, out)
        | .ok r =>
          if !r.shouldContinue then (.returned, st, out ++ r.writes)
          else
            handleStreamRequest.sseLoop env cfg openAIReq now cookie responseId jsonData rest st
              (out ++ r.writes)

/-- The variables the step function of `handleStreamRequest` captures and
updates: `cookie`, `cookieManager`, `openAIReq`, and what has been done so far. -/
structure StreamState where
  cookie : String
  cookieManager : CookieManager
  openAIReq : OpenAIChatCompletionRequest
  out : Outcome

/-- The attempt loop inside the step function of `handleStreamRequest`; the
first argument is `maxRetries - attempt`, the result is the value the step
function returns and the state it leaves. -/
def handleStreamRequest.attempts (env : Env) (cfg : Config) (run : Run) (responseId : String) :
    Nat → StreamState → Bool × StreamState
  | 0, s =>
    (false, { s with out := { s.out with writes := s.out.writes ++
      [.json 500 (.error "All cookies are temporarily unavailable.")] } })
  | remaining + 1, s =>
    match createRequestBody env cfg s.openAIReq with
    | .error err =>
      (false, { s with out := { s.out with writes := s.out.writes ++ [.json 500 (.error err)] } })
    | .ok (requestBody, openAIReq) =>
      let s := { s with openAIReq := openAIReq }
      match env.MarshalBody requestBody with
      | .error _ =>
        (false, { s with out := { s.out with writes := s.out.writes ++
          [.json 500 (.error "Failed to marshal request body")] } })
      | .ok jsonData =>
        let k := s.out.requests.length
        let o := { s.out with requests := s.out.requests ++ [(s.cookie, jsonData)] }
        match MakeStreamChatRequest run k with
        | .error err =>
          (false, { s with out := { o with writes := o.writes ++ [.json 500 (.error err)] } })
        | .ok sseChan =>
          match handleStreamRequest.sseLoop env cfg openAIReq (run.clock k) s.cookie responseId
              jsonData sseChan o.store o.writes with
          | (.returned, st, out) => (false, { s with out := { o with store := st, writes := out } })
          | (.drained, st, out) => (true, { s with out := { o with store := st, writes := out } })
          | (.panicked, st, out) =>
            (false, { s with out := { o with store := st, writes := out, panicked := true } })
          | (.retry, st, out) =>
            match GetNextCookie s.cookieManager with
            | .error err =>
              (false, { s with out :=
                { o with store := st, writes := out ++ [.json 500 (.error err)] } })
            | .ok (cookie, cookieManager) =>
              handleStreamRequest.attempts env cfg run responseId remaining
                { s with cookie := cookie, cookieManager := cookieManager,
                         out := { o with store := st, writes := out } }

/-- `gin.Context.Stream(step)`: as long as the client is connected, `step` is
called, and called again when it returned true; the first argument counts the
times the client is found connected. -/
def ginStream {σ : Type} (step : σ → Bool × σ) : Nat → σ → σ
  | 0, s => s
  | polls + 1, s =>
    let r := step s
    if r.1 then ginStream step polls r.2 else r.2

/-- `handleStreamRequest` (the three `c.Header` calls are not recorded). -/
def handleStreamRequest (env : Env) (cfg : Config) (run : Run)
    (openAIReq : OpenAIChatCompletionRequest) (st : Store) : Outcome :=
  let responseId := responseID env run.start
  let built := NewCookieManager run.start st
  match overrideCookies cfg run built.1 with
  | none =>
    ⟨built.2, [.json 400 (.error "Authorization header is required")], [], false⟩
  | some cookieManager =>
    let maxRetries := cookieManager.Cookies.length
    match GetRandomCookie run.randCookie cookieManager with
    | .error err => ⟨built.2, [.json 500 (.error err)], [], false⟩
    | .ok (cookie, cookieManager) =>
      (ginStream (handleStreamRequest.attempts env cfg run responseId maxRetries)
        run.clientPolls ⟨cookie, cookieManager, openAIReq, ⟨built.2, [], [], false⟩⟩).out

/-- `ChatForOpenAI`; `bound` is what `c.BindJSON` yields. -/
def ChatForOpenAI (env : Env) (cfg : Config) (run : Run)
    (bound : Except String OpenAIChatCompletionRequest) (st : Store) : Outcome :=
  match bound with
  | .error _ =>
    ⟨st, [.json 500 (.openAIError ⟨"Invalid request parameters", "request_error", "500"⟩)],
      [], false⟩
  | .ok openAIReq =>
    let openAIReq := RemoveEmptyContentMessages openAIReq
    match GetModelInfo openAIReq.Model with
    | none =>
      ⟨st, [.json 400 (.openAIError ⟨"Model " ++ openAIReq.Model ++ " not supported",
        "invalid_request_error", "invalid_model"⟩)], [], false⟩
    | some modelInfo =>
      if openAIReq.MaxTokens > modelInfo.MaxTokens then
        ⟨st, [.json 400 (.openAIError ⟨"Max tokens " ++ toString openAIReq.MaxTokens ++
          " exceeds limit " ++ toString modelInfo.MaxTokens,
          "invalid_request_error", "invalid_max_tokens"⟩)], [], false⟩
      else if openAIReq.Stream then handleStreamRequest env cfg run openAIReq st
      else handleNonStreamRequest env cfg run openAIReq st

/-! ## Predicates used in the statements -/

/-- Whether `c` has a quarantine entry in `rl` whose expiry is after `now`. -/
def quarantined (now : Time) (rl : String → Option Time) (c : String) : Bool :=
  match rl c with
  | some expirationTime => decide (now < expirationTime)
  | none => false

/-- The test a trimmed list entry passes to enter the view: it is not empty and
not quarantined at `now`. -/
def selectable (now : Time) (rl : String → Option Time) (c : String) : Bool :=
  decide (c ≠ "") && !quarantined now rl c

/-- Request bodies can be built and marshalled: the configured prepend JSON,
when there is one, decodes, and `json.Marshal` accepts every body. -/
def BodiesBuild (env : Env) (cfg : Config) : Prop :=
  (cfg.PRE_MESSAGES_JSON = "" ∨ ∃ ms, env.UnmarshalMessages cfg.PRE_MESSAGES_JSON = .ok ms) ∧
    ∀ b, ∃ jsonData, env.MarshalBody b = .ok jsonData

/-- A frame the aggregate loop passes over: its data is empty, or it is not a
done event and the extractor says to continue. -/
def passesOver (env : Env) (r : SSEResponse) : Prop :=
  r.Data = "" ∨
    (r.Done = false ∧ ∃ e, processNoStreamData env r.Data = .ok e ∧ e.shouldContinue = true)

/-- The text the aggregate loop adds for a frame it passes over. -/
def deltaOf (env : Env) (r : SSEResponse) : String :=
  if r.Data = "" then ""
  else
    match processNoStreamData env r.Data with
    | .ok e => e.delta
    | .error _ => ""

/-- The strings `d1 ++ (d2 ++ ...)`. -/
def concatStrings (ds : List String) : String :=
  ds.foldr (fun d acc => d ++ acc) ""

/-- The attempt ends on a done event: after frames the aggregate loop passes
over, the channel delivers a done event with non-empty data satisfying `p`. -/
def endsOnDone (env : Env) (p : String → Bool) (chan : List SSEResponse) : Prop :=
  ∃ pre d post, chan = pre ++ d :: post ∧ (∀ r ∈ pre, passesOver env r) ∧
    d.Done = true ∧ d.Data ≠ "" ∧ p d.Data = true

/-- The done-event data the switch of the handlers classifies as quota exceeded. -/
def isQuotaExceeded (env : Env) (data : String) : Bool :=
  env.IsUsageLimitExceeded data

/-- The done-event data the switch of the handlers classifies as rate limited:
the fourth case, reached when the first three do not match. -/
def isRateLimited (env : Env) (data : String) : Bool :=
  !env.IsUsageLimitExceeded data && !env.IsServerError data && !env.IsNotLogin data &&
    env.IsRateLimit data

/-- The aggregate extractor stops on the frame without an error response, as
it does on the sentinel `[DONE]` and on finish reason `end_turn`. -/
def isSuccessTerminal (env : Env) (data : String) : Prop :=
  processNoStreamData env data = .ok ⟨"", false, []⟩

/-- The channel yields the text deltas `ds` and then a success terminal: one
frame per delta, none a done event, each with data on which the extractor
continues with that delta, then a frame that is a success terminal. -/
def yieldsDeltas (env : Env) (ds : List String) (chan : List SSEResponse) : Prop :=
  ∃ frames term post, chan = frames ++ term :: post ∧
    List.Forall₂ (fun r d => r.Done = false ∧ r.Data ≠ "" ∧
      ∃ w, processNoStreamData env r.Data = .ok ⟨d, true, w⟩) frames ds ∧
    term.Done = false ∧ term.Data ≠ "" ∧ isSuccessTerminal env term.Data

/-- The message sequence of an upstream request body: `request_payload.messages`. -/
def bodyMessages (body : Json) : List Json :=
  match body with
  | .obj top =>
    match asMap (mapGet top "request_payload") with
    | some payload => (asSlice (mapGet payload "messages")).getD []
    | none => []
  | _ => []

/-- Whether a write to the client is a `c.JSON` response. -/
def ClientWrite.isJson : ClientWrite → Bool
  | .json _ _ => true
  | .sse _ => false

/-- No write of the list is a `c.JSON` response. -/
def noJson (ws : List ClientWrite) : Prop :=
  ∀ w ∈ ws, w.isJson = false

/-- A `c.JSON` response, if the list has one, is its last write. -/
def jsonOnlyLast (ws : List ClientWrite) : Prop :=
  ∀ w ∈ ws.dropLast, w.isJson = false

/-- The content of a message is not `nil`, not the empty string and not an
empty array. -/
def hasContent (msg : OpenAIChatMessage) : Bool :=
  match msg.Content with
  | .null => false
  | .str "" => false
  | .arr [] => false
  | _ => true

/-- The value under `request_payload.max_tokens` of an upstream request body. -/
def bodyMaxTokens (body : Json) : Option Json :=
  match body with
  | .obj top =>
    match asMap (mapGet top "request_payload") with
    | some payload => mapGet payload "max_tokens"
    | none => none
  | _ => none

/-- The prepend JSON, when one is configured, decodes. -/
def PrependDecodes (env : Env) (cfg : Config) : Prop :=
  cfg.PRE_MESSAGES_JSON = "" ∨ ∃ ms, env.UnmarshalMessages cfg.PRE_MESSAGES_JSON = .ok ms

/-- A frame the streaming loop passes over: its status is neither 403 nor
401 and either its data is empty, or it is not a done event and the extractor
says to continue. -/
def streamPassesOver (env : Env) (now : Time) (responseId modelName jsonData : String)
    (r : SSEResponse) : Prop :=
  r.Status ≠ 403 ∧ r.Status ≠ 401 ∧
    (r.Data = "" ∨ (r.Done = false ∧
      ∃ e, processStreamData env now r.Data responseId modelName jsonData = .ok e ∧
        e.shouldContinue = true))

/-- The writes the streaming loop makes for one frame it passes over. -/
def streamWritesOf (env : Env) (now : Time) (responseId modelName jsonData : String)
    (r : SSEResponse) : List ClientWrite :=
  if r.Data = "" then []
  else
    match processStreamData env now r.Data responseId modelName jsonData with
    | .ok e => e.writes
    | .error _ => []

/-- The writes the streaming loop makes for the frames it passes over, in order. -/
def streamWrites (env : Env) (now : Time) (responseId modelName jsonData : String)
    (pre : List SSEResponse) : List ClientWrite :=
  pre.foldr (fun r acc => streamWritesOf env now responseId modelName jsonData r ++ acc) []

/-- The done-event data the switch of the handlers classifies as not
authenticated: the third case, reached when the first two do not match. -/
def isNotAuthenticated (env : Env) (data : String) : Bool :=
  !env.IsUsageLimitExceeded data && !env.IsServerError data && env.IsNotLogin data

/-- The manager after `GetNextCookie` on a non-empty view. -/
def nextManager (cm : CookieManager) : CookieManager :=
  ⟨cm.Cookies, (cm.currentIndex + 1) % cm.Cookies.length⟩

/-- The credential `GetNextCookie` returns on a non-empty view. -/
def nextCookie (cm : CookieManager) : String :=
  cm.Cookies.getD ((cm.currentIndex + 1) % cm.Cookies.length) ""

/-- The final chunk of `handleMessageResult`: no content, finish reason `stop`,
usage zero. -/
def finalChunk (now : Time) (responseId modelName : String) : OpenAIChatCompletionResponse :=
  { ID := responseId
    Object := "chat.completion.chunk"
    Created := unixSeconds now
    Model := modelName
    Choices := [{ Index := 0, Message := ⟨"", ""⟩, FinishReason := some "stop",
                  Delta := ⟨"", "assistant"⟩ }]
    Usage := ⟨0, 0, 0⟩ }

/-- The lock duration, in seconds, is one whose nanoseconds fit `int64`. -/
def lockFits (lock : Int) : Prop :=
  -9223372036 ≤ lock ∧ lock ≤ 9223372036

/-! ## Sample collaborators for concrete runs -/

/-- A decoder for three kinds of frame: `end` is a choice with finish reason
`end_turn`, `text:t` a choice whose message content is the one text item `t`,
anything else fails to decode. -/
def sampleUnmarshalEvent (s : String) : Except String (List (String × Json)) :=
  if s = "end" then
    .ok [("response_payload", .obj [("choices", .arr [.obj [("finish_reason", .str "end_turn")]])])]
  else if "text:".data.isPrefixOf s.data then
    .ok [("response_payload", .obj [("choices", .arr [.obj [("message",
      .obj [("content", .arr [textItem (TrimPrefix s "text:")])])]])])]
  else .error "invalid character"

/-- The roles of the messages of a request body, each followed by a comma. -/
def sampleMarshalBody : Json → String
  | .obj (("request_payload", .obj (("messages", .arr msgs) :: _)) :: _) =>
    concatStrings (msgs.map (fun m =>
      match m with
      | .obj (("role", .str role) :: _) => role ++ ","
      | _ => "?,"))
  | _ => "?"

/-- Sample collaborators: the classifiers recognise the payloads `quota`,
`server`, `login` and `rate`; the prepend JSON `pre` decodes to one system
message. -/
def sampleEnv : Env where
  UnmarshalEvent := sampleUnmarshalEvent
  UnmarshalMessages := fun s =>
    if s = "pre" then .ok [⟨"system", .str "be brief"⟩] else .error "unexpected end of JSON input"
  MarshalBody := fun b => .ok (sampleMarshalBody b)
  MarshalResponse := fun r =>
    .ok (concatStrings (r.Choices.map (fun c => c.Delta.Content ++ "|" ++ c.FinishReason.getD "")))
  IsUsageLimitExceeded := fun d => d = "quota"
  IsServerError := fun d => d = "server"
  IsNotLogin := fun d => d = "login"
  IsRateLimit := fun d => d = "rate"
  CountTokenText := fun text _ => text.data.length
  Sprint := fun _ => ""
  FormatTime := fun _ => "20250101000000"

/-- A request with one user message. -/
def sampleRequest : OpenAIChatCompletionRequest :=
  ⟨"anthropic:claude-sonnet-4@20250514", false, [⟨"user", .str "hi"⟩], 100, 1, 0, 0, 1⟩

/-- The pool `["a", "b"]` with no quarantine entry. -/
def sampleStore : Store :=
  ⟨["a", "b"], fun _ => none⟩

/-- Configuration outside override mode, lock duration 600 s, nothing to prepend. -/
def sampleConfig : Config :=
  ⟨false, 600, ""⟩

/-- A run in which every upstream call ends on the done event `quota`. -/
def quotaRun : Run where
  Authorization := ""
  randKey := 0
  randCookie := 0
  start := 1000000000000
  clock := fun k => (1000 + k) * 1000000000
  DoSSE := fun _ => .ok [⟨200, "quota", true⟩]
  clientPolls := 1

/-- A run whose first upstream call ends on the done event `rate` and whose
second delivers the deltas `Hel`, `lo` and then finish reason `end_turn`. -/
def recoveryRun : Run where
  Authorization := ""
  randKey := 0
  randCookie := 0
  start := 1000000000000
  clock := fun k => (1000 + k) * 1000000000
  DoSSE := fun k =>
    if k = 0 then .ok [⟨200, "rate", true⟩]
    else .ok [⟨200, "data: text:Hel", false⟩, ⟨200, "data: text:lo\n", false⟩,
      ⟨200, "data: end", false⟩]
  clientPolls := 1

/-- Configuration outside override mode with the prepend JSON `pre`. -/
def prependConfig : Config :=
  ⟨false, 600, "pre"⟩

/-- Configuration in override mode. -/
def overrideConfig : Config :=
  ⟨true, 600, ""⟩

/-- A run carrying the override credential `k1` whose upstream calls all end on
the done event `rate`. -/
def overrideRun : Run where
  Authorization := "Bearer k1"
  randKey := 0
  randCookie := 0
  start := 1000000000000
  clock := fun k => (1000 + k) * 1000000000
  DoSSE := fun _ => .ok [⟨200, "rate", true⟩]
  clientPolls := 1

/-- A run whose upstream call ends on a done event no classifier recognises. -/
def unknownRun : Run where
  Authorization := ""
  randKey := 0
  randCookie := 0
  start := 1000000000000
  clock := fun k => (1000 + k) * 1000000000
  DoSSE := fun _ => .ok [⟨200, "teapot", true⟩]
  clientPolls := 1

/-- A run whose channels are closed without delivering an item, the client
staying connected for three rounds of `Stream`. -/
def silentRun : Run where
  Authorization := ""
  randKey := 0
  randCookie := 0
  start := 1000000000000
  clock := fun k => (1000 + k) * 1000000000
  DoSSE := fun _ => .ok []
  clientPolls := 3

/-- The pool `["a"]` with no quarantine entry. -/
def singleStore : Store :=
  ⟨["a"], fun _ => none⟩

/-- A run whose first upstream call delivers an item with transport status 401
and whose later calls deliver finish reason `end_turn`. -/
def unauthorizedRun : Run where
  Authorization := ""
  randKey := 0
  randCookie := 0
  start := 1000000000000
  clock := fun k => (1000 + k) * 1000000000
  DoSSE := fun k =>
    if k = 0 then .ok [⟨401, "", false⟩] else .ok [⟨200, "data: end", false⟩]
  clientPolls := 1

/-- A run whose first upstream call delivers an item with transport status 403
and whose later calls deliver finish reason `end_turn`. -/
def forbiddenRun : Run where
  Authorization := ""
  randKey := 0
  randCookie := 0
  start := 1000000000000
  clock := fun k => (1000 + k) * 1000000000
  DoSSE := fun k =>
    if k = 0 then .ok [⟨403, "", false⟩] else .ok [⟨200, "data: end", false⟩]
  clientPolls := 1

/-- A run whose upstream calls all end on the done event `login`. -/
def loginRun : Run where
  Authorization := ""
  randKey := 0
  randCookie := 0
  start := 1000000000000
  clock := fun k => (1000 + k) * 1000000000
  DoSSE := fun _ => .ok [⟨200, "login", true⟩]
  clientPolls := 1

/-- The state of the streaming step function at its first call for the pool
`["a", "b"]` with the first credential drawn. -/
def sampleStreamState : StreamState :=
  ⟨"a", ⟨["a", "b"], 0⟩, sampleRequest, ⟨sampleStore, [], [], false⟩⟩

/-- The sample collaborators with one more frame, `pair`, whose message
content holds the two text items `Hel` and `lo`. -/
def pairEnv : Env :=
  { sampleEnv with
    UnmarshalEvent := fun s =>
      if s = "pair" then
        .ok [("response_payload", .obj [("choices", .arr [.obj [("message",
          .obj [("content", .arr [textItem "Hel", textItem "lo"])])]])])]
      else sampleUnmarshalEvent s }

/-- A run whose upstream call delivers the delta `Hel` and then the sentinel `[DONE]`. -/
def doneRun : Run where
  Authorization := ""
  randKey := 0
  randCookie := 0
  start := 1000000000000
  clock := fun k => (1000 + k) * 1000000000
  DoSSE := fun _ => .ok [⟨200, "data: text:Hel", false⟩, ⟨200, "data: [DONE]", false⟩]
  clientPolls := 1

/-- A run whose upstream call delivers the delta `Hel` and then finish reason `end_turn`. -/
def endTurnRun : Run where
  Authorization := ""
  randKey := 0
  randCookie := 0
  start := 1000000000000
  clock := fun k => (1000 + k) * 1000000000
  DoSSE := fun _ => .ok [⟨200, "data: text:Hel", false⟩, ⟨200, "data: end", false⟩]
  clientPolls := 1

/-- A run whose upstream call delivers the delta `Hel` and then a frame that
does not decode. -/
def garbledRun : Run where
  Authorization := ""
  randKey := 0
  randCookie := 0
  start := 1000000000000
  clock := fun k => (1000 + k) * 1000000000
  DoSSE := fun _ => .ok [⟨200, "data: text:Hel", false⟩, ⟨200, "oops", false⟩]
  clientPolls := 1

/-- The sample collaborators with one more frame, `num`, a JSON object whose
first choice has the number 1 as its finish reason. -/
def numberEnv : Env :=
  { sampleEnv with
    UnmarshalEvent := fun s =>
      if s = "num" then
        .ok [("response_payload", .obj [("choices", .arr [.obj [("finish_reason", .num 1)]])])]
      else sampleUnmarshalEvent s }

/-- A run whose upstream call delivers the frame `num`. -/
def numberRun : Run where
  Authorization := ""
  randKey := 0
  randCookie := 0
  start := 1000000000000
  clock := fun k => (1000 + k) * 1000000000
  DoSSE := fun _ => .ok [⟨200, "data: num", false⟩]
  clientPolls := 1

/-- A run whose first upstream call ends on the done event `rate` and whose
second delivers the deltas `Hel`, `lo` and then the sentinel `[DONE]` in an
item flagged as a done event. -/
def flaggedDoneRun : Run where
  Authorization := ""
  randKey := 0
  randCookie := 0
  start := 1000000000000
  clock := fun k => (1000 + k) * 1000000000
  DoSSE := fun k =>
    if k = 0 then .ok [⟨200, "rate", true⟩]
    else .ok [⟨200, "data: text:Hel", false⟩, ⟨200, "data: text:lo\n", false⟩,
      ⟨200, "data: [DONE]", true⟩]
  clientPolls := 1

/-- Configuration outside override mode with a lock duration of 10000000000 s. -/
def longLockConfig : Config :=
  ⟨false, 10000000000, ""⟩

/-- A run whose upstream calls all deliver a done event with transport status
401 and the payload `login`. -/
def loginUnauthorizedRun : Run where
  Authorization := ""
  randKey := 0
  randCookie := 0
  start := 1000000000000
  clock := fun k => (1000 + k) * 1000000000
  DoSSE := fun _ => .ok [⟨401, "login", true⟩]
  clientPolls := 1

/-! ## The credential pool -/

theorem quarantined_syncDelete (now : Time) (rl : String → Option Time) (c : String)
    (h : quarantined now rl c = false) :
    quarantined now (syncDelete rl c) = quarantined now rl := by
  funext x
  by_cases hx : x = c
  · subst hx
    simp [quarantined, syncDelete, h]
    simpa [quarantined] using h.symm
  · simp [quarantined, syncDelete, hx]

theorem NewCookieManager.loop_view (now : Time) (l : List String) :
    ∀ (rl : String → Option Time) (acc : List String),
      (NewCookieManager.loop now l rl acc).1 =
        acc ++ (l.map TrimSpace).filter (selectable now rl) := by
  induction l with
  | nil => intro rl acc; simp [NewCookieManager.loop]
  | cons x xs ih =>
    intro rl acc
    simp only [NewCookieManager.loop, List.map_cons]
    by_cases hx : TrimSpace x = ""
    · simp [hx, ih, selectable, List.filter_cons]
    · simp only [hx, if_false]
      cases hq : rl (TrimSpace x) with
      | none =>
        simp [ih, selectable, quarantined, hq, hx, List.filter_cons]
      | some e =>
        by_cases hlt : now < e
        · simp [hlt, ih, selectable, quarantined, hq, hx, List.filter_cons]
        · have hqf : quarantined now rl (TrimSpace x) = false := by
            simp [quarantined, hq, hlt]
          have hsel : selectable now (syncDelete rl (TrimSpace x)) = selectable now rl := by
            funext c
            simp [selectable, quarantined_syncDelete now rl _ hqf]
          simp [hlt, ih, hsel, List.filter_cons, selectable, hqf, hx]

theorem NewCookieManager_cookies (now : Time) (st : Store) :
    (NewCookieManager now st).1.Cookies =
      (st.RVCookies.map TrimSpace).filter (selectable now st.rateLimitCookies) := by
  simp [NewCookieManager, GetRVCookies, NewCookieManager.loop_view]

theorem NewCookieManager_RVCookies (now : Time) (st : Store) :
    (NewCookieManager now st).2.RVCookies = st.RVCookies := rfl

theorem NewCookieManager.loop_entries (now : Time) (l : List String) :
    ∀ (rl : String → Option Time) (acc : List String) (x : String) (e : Time),
      (NewCookieManager.loop now l rl acc).2 x = some e → rl x = some e := by
  induction l with
  | nil => intro rl acc x e h; simpa [NewCookieManager.loop] using h
  | cons y ys ih =>
    intro rl acc x e h
    simp only [NewCookieManager.loop] at h
    split at h
    · exact ih _ _ _ _ h
    · split at h
      · split at h
        · exact ih _ _ _ _ h
        · have := ih _ _ _ _ h
          simp only [syncDelete] at this
          split at this
          · cases this
          · exact this
      · exact ih _ _ _ _ h

theorem RemoveCookie.loop_filter (c : String) (l : List String) :
    ∀ acc : List String,
      RemoveCookie.loop c l acc = acc ++ l.filter (fun x => decide (x ≠ c)) := by
  induction l with
  | nil => intro acc; simp [RemoveCookie.loop]
  | cons y ys ih =>
    intro acc
    by_cases hy : y = c
    · simp [RemoveCookie.loop, hy, ih]
    · simp [RemoveCookie.loop, hy, ih]

theorem RemoveCookie_RVCookies (cfg : Config) (c : String) (st : Store)
    (h : cfg.CustomHeaderKeyEnabled = false) :
    (RemoveCookie cfg c st).RVCookies = st.RVCookies.filter (fun x => decide (x ≠ c)) := by
  simp [RemoveCookie, h, GetRVCookies, RemoveCookie.loop_filter]

theorem RemoveCookie_rateLimitCookies (cfg : Config) (c : String) (st : Store) :
    (RemoveCookie cfg c st).rateLimitCookies = st.rateLimitCookies := by
  unfold RemoveCookie
  split <;> rfl

theorem AddRateLimitCookie_RVCookies (cfg : Config) (c : String) (t : Time) (st : Store) :
    (AddRateLimitCookie cfg c t st).RVCookies = st.RVCookies := by
  unfold AddRateLimitCookie
  split <;> rfl

theorem GetNextCookie_ok (view : List String) (i : Nat) (h : view ≠ []) :
    GetNextCookie ⟨view, i⟩ =
      .ok (view.getD ((i + 1) % view.length) "", ⟨view, (i + 1) % view.length⟩) := by
  have hl : view.length ≠ 0 := by simpa using h
  have hlt : (i + 1) % view.length < view.length := Nat.mod_lt _ (Nat.pos_of_ne_zero hl)
  simp [GetNextCookie, hl, List.getD_eq_getElem?_getD, List.getElem?_eq_getElem hlt]

theorem nextCookies_eq (view : List String) (h : view ≠ []) :
    ∀ (k i : Nat), i < view.length →
      nextCookies k ⟨view, i⟩ =
        ((List.range k).map (fun j => Except.ok (view.getD ((i + j + 1) % view.length) "")),
          ⟨view, (i + k) % view.length⟩) := by
  have hl : 0 < view.length := List.length_pos.mpr h
  intro k
  induction k with
  | zero => intro i hi; simp [nextCookies, Nat.mod_eq_of_lt hi]
  | succ k ih =>
    intro i hi
    have hlt : (i + 1) % view.length < view.length := Nat.mod_lt _ hl
    simp only [nextCookies, GetNextCookie_ok view i h, ih _ hlt, List.range_succ_eq_map,
      List.map_cons, List.map_map]
    refine Prod.ext ?_ ?_
    · simp only [List.cons.injEq]
      refine ⟨by simp, ?_⟩
      apply List.map_congr_left
      intro j _
      simp only [Function.comp]
      congr 2
      rw [Nat.add_assoc, Nat.mod_add_mod]
      congr 1
      omega
    · simp only
      congr 1
      rw [Nat.mod_add_mod]
      congr 1
      omega

theorem rotation_perm (n i : Nat) :
    ((List.range n).map (fun j => (i + j) % n)).Perm (List.range n) := by
  rcases Nat.eq_zero_or_pos n with hn | hn
  · subst hn; simp
  · apply List.Subperm.perm_of_length_le
    · apply List.subperm_of_subset
      · apply List.Nodup.map_on _ (List.nodup_range n)
        intro a ha b hb hab
        rw [List.mem_range] at ha hb
        have h2 : a % n = b % n := Nat.ModEq.add_left_cancel' i hab
        rwa [Nat.mod_eq_of_lt ha, Nat.mod_eq_of_lt hb] at h2
      · intro x hx
        rw [List.mem_map] at hx
        obtain ⟨j, _, rfl⟩ := hx
        exact List.mem_range.mpr (Nat.mod_lt _ hn)
    · simp

/-- C1: the view built by `NewCookieManager` is the list's entries, trimmed, in
list order, each entry kept once exactly when it is non-empty after trimming
and has no quarantine entry expiring after `now`; so no member of the view has
an unexpired quarantine entry. -/
theorem NewCookieManager_view (now : Time) (st : Store) :
    (NewCookieManager now st).1.Cookies =
        (st.RVCookies.map TrimSpace).filter (selectable now st.rateLimitCookies) ∧
      (∀ c ∈ (NewCookieManager now st).1.Cookies,
        ∀ e, st.rateLimitCookies c = some e → ¬ now < e) ∧
      (∀ c ∈ (NewCookieManager now st).1.Cookies,
        c ≠ "" ∧ ∃ x ∈ st.RVCookies, TrimSpace x = c) := by
  have hv := NewCookieManager_cookies now st
  refine ⟨hv, ?_, ?_⟩
  · intro c hc e he hlt
    rw [hv, List.mem_filter] at hc
    simp [selectable, quarantined, he, hlt] at hc
  · intro c hc
    rw [hv, List.mem_filter, List.mem_map] at hc
    obtain ⟨⟨x, hx, rfl⟩, hs⟩ := hc
    refine ⟨?_, x, hx, rfl⟩
    simp [selectable] at hs
    exact hs.1

/-- C7: from any starting index inside a view of length `n`, consecutive
`GetNextCookie` calls return `view[(i+1) mod n]`, `view[(i+2) mod n]`, ...;
`n` calls visit every position exactly once and leave `currentIndex` where it
started. -/
theorem GetNextCookie_cycle (view : List String) (i : Nat) (hi : i < view.length) :
    (∀ k, (nextCookies k ⟨view, i⟩).1 =
        (List.range k).map (fun j => Except.ok (view.getD ((i + j + 1) % view.length) ""))) ∧
      (nextCookies view.length ⟨view, i⟩).2 = ⟨view, i⟩ ∧
      ((List.range view.length).map (fun j => (i + j + 1) % view.length)).Perm
        (List.range view.length) := by
  have h : view ≠ [] := by
    intro hv; subst hv; simp at hi
  refine ⟨fun k => ?_, ?_, ?_⟩
  rotate_left 2
  · have hp := rotation_perm view.length (i + 1)
    have he : (fun j => (i + 1 + j) % view.length) = (fun j => (i + j + 1) % view.length) := by
      funext j; congr 1; omega
    rwa [he] at hp
  · rw [nextCookies_eq view h k i hi]
  · rw [nextCookies_eq view h _ i hi]
    simp [Nat.mod_eq_of_lt hi]

theorem GetNextCookie_cycle_witness :
    (nextCookies 3 ⟨["a", "b", "c"], 1⟩).1 = [.ok "c", .ok "a", .ok "b"] ∧
      (nextCookies 3 ⟨["a", "b", "c"], 1⟩).2 = ⟨["a", "b", "c"], 1⟩ := by
  have h := GetNextCookie_cycle ["a", "b", "c"] 1 (by decide)
  refine ⟨?_, h.2.1⟩
  rw [h.1 3]
  rfl

/-- C8: outside override mode `RemoveCookie c` replaces the list by its
entries different from `c`, in their order: the new list is the filtered old
one, every other entry keeps its multiplicity, `c` is gone, and the quarantine
mapping is untouched. -/
theorem RemoveCookie_filter (cfg : Config) (c : String) (st : Store)
    (h : cfg.CustomHeaderKeyEnabled = false) :
    (RemoveCookie cfg c st).RVCookies = st.RVCookies.filter (fun x => decide (x ≠ c)) ∧
      (RemoveCookie cfg c st).RVCookies.Sublist st.RVCookies ∧
      (∀ x, x ≠ c → (RemoveCookie cfg c st).RVCookies.count x = st.RVCookies.count x) ∧
      c ∉ (RemoveCookie cfg c st).RVCookies ∧
      (RemoveCookie cfg c st).rateLimitCookies = st.rateLimitCookies := by
  have hf := RemoveCookie_RVCookies cfg c st h
  refine ⟨hf, ?_, ?_, ?_, RemoveCookie_rateLimitCookies cfg c st⟩
  · rw [hf]; exact List.filter_sublist _
  · intro x hx
    rw [hf, List.count_filter]
    simpa using hx
  · rw [hf]; simp

theorem RemoveCookie_filter_witness :
    (RemoveCookie ⟨false, 600, ""⟩ "b" ⟨["a", "b", "a", " b", "b"], fun _ => none⟩).RVCookies
      = ["a", "a", " b"] := by
  rw [(RemoveCookie_filter ⟨false, 600, ""⟩ "b" ⟨["a", "b", "a", " b", "b"], fun _ => none⟩ rfl).1]
  decide

/-- C9 at the list `["a", " b"]` (from `RV_COOKIE="a, b"`): the view holds the
trimmed `"b"`, `RemoveCookie "b"` compares it with the untrimmed entry and
removes nothing, and the next view holds `"b"` again. -/
theorem RemoveCookie_padded_entry_survives :
    "b" ∈ (NewCookieManager 0 ⟨["a", " b"], fun _ => none⟩).1.Cookies ∧
      (RemoveCookie ⟨false, 600, ""⟩ "b" ⟨["a", " b"], fun _ => none⟩).RVCookies = ["a", " b"] ∧
      "b" ∈ (NewCookieManager 1
        (RemoveCookie ⟨false, 600, ""⟩ "b" ⟨["a", " b"], fun _ => none⟩)).1.Cookies := by
  decide

/-! ## The aggregate handler -/

theorem processNoStreamData_writes (env : Env) (data : String) (e : Extract)
    (h : processNoStreamData env data = .ok e) (hc : e.shouldContinue = true) :
    e.writes = [] := by
  unfold processNoStreamData at h
  simp only at h
  repeat' split at h
  all_goals (cases h <;> first | rfl | simp at hc)

theorem createRequestBody_ok (env : Env) (cfg : Config) (hb : BodiesBuild env cfg)
    (r : OpenAIChatCompletionRequest) :
    ∃ b r', createRequestBody env cfg r = .ok (b, r') := by
  rcases hb.1 with h | ⟨ms, h⟩
  · simp [createRequestBody, h]
  · by_cases hp : cfg.PRE_MESSAGES_JSON = ""
    · simp [createRequestBody, hp]
    · simp [createRequestBody, hp, PrependMessagesFromJSON, h]

theorem aggregate_sseLoop_passes (env : Env) (cfg : Config)
    (req : OpenAIChatCompletionRequest) (now : Time) (cookie jsonData : String)
    (pre rest : List SSEResponse) (hpre : ∀ r ∈ pre, passesOver env r) :
    ∀ (acc : String) (st : Store) (out : List ClientWrite),
      handleNonStreamRequest.sseLoop env cfg req now cookie jsonData (pre ++ rest) acc st out =
        handleNonStreamRequest.sseLoop env cfg req now cookie jsonData rest
          (acc ++ concatStrings (pre.map (deltaOf env))) st out := by
  induction pre with
  | nil => intro acc st out; simp [concatStrings]
  | cons r rs ih =>
    intro acc st out
    have hr := hpre r (List.mem_cons_self _ _)
    have hrs : ∀ x ∈ rs, passesOver env x := fun x hx => hpre x (List.mem_cons_of_mem _ hx)
    have hcat : acc ++ concatStrings ((r :: rs).map (deltaOf env)) =
        (acc ++ deltaOf env r) ++ concatStrings (rs.map (deltaOf env)) := by
      simp [concatStrings, String.append_assoc]
    rw [hcat, List.cons_append]
    rcases hr with hr | ⟨hd, e, he, hc⟩
    · simp only [handleNonStreamRequest.sseLoop, hr, if_true]
      rw [ih hrs]
      simp [deltaOf, hr]
    · by_cases hdata : r.Data = ""
      · simp only [handleNonStreamRequest.sseLoop, hdata, if_true]
        rw [ih hrs]
        simp [deltaOf, hdata]
      · have hw := processNoStreamData_writes env r.Data e he hc
        simp only [handleNonStreamRequest.sseLoop, hdata, if_false, hd, he, hc, hw,
          Bool.not_true, List.append_nil, Bool.false_eq_true]
        rw [ih hrs]
        simp [deltaOf, hdata, he]

theorem aggregate_sseLoop_quota (env : Env) (cfg : Config)
    (req : OpenAIChatCompletionRequest) (now : Time) (cookie jsonData : String)
    (chan : List SSEResponse) (h : endsOnDone env (isQuotaExceeded env) chan)
    (acc : String) (st : Store) (out : List ClientWrite) :
    handleNonStreamRequest.sseLoop env cfg req now cookie jsonData chan acc st out =
      (.retry, RemoveCookie cfg cookie st, out) := by
  obtain ⟨pre, d, post, rfl, hpre, hd, hne, hp⟩ := h
  rw [aggregate_sseLoop_passes env cfg req now cookie jsonData pre _ hpre]
  simp only [isQuotaExceeded] at hp
  simp [handleNonStreamRequest.sseLoop, hne, hd, hp]

theorem aggregate_sseLoop_rateLimited (env : Env) (cfg : Config)
    (req : OpenAIChatCompletionRequest) (now : Time) (cookie jsonData : String)
    (chan : List SSEResponse) (h : endsOnDone env (isRateLimited env) chan)
    (acc : String) (st : Store) (out : List ClientWrite) :
    handleNonStreamRequest.sseLoop env cfg req now cookie jsonData chan acc st out =
      (.retry, AddRateLimitCookie cfg cookie
          (now + secondsDuration cfg.RateLimitCookieLockDuration) st, out) := by
  obtain ⟨pre, d, post, rfl, hpre, hd, hne, hp⟩ := h
  rw [aggregate_sseLoop_passes env cfg req now cookie jsonData pre _ hpre]
  simp only [isRateLimited, Bool.and_eq_true, Bool.not_eq_true'] at hp
  obtain ⟨⟨⟨h1, h2⟩, h3⟩, h4⟩ := hp
  simp [handleNonStreamRequest.sseLoop, hne, hd, h1, h2, h3, h4]

theorem aggregate_attempts_retry (env : Env) (cfg : Config) (run : Run)
    (remaining : Nat) (cookie cookie' : String) (cm cm' : CookieManager)
    (req req' : OpenAIChatCompletionRequest) (o : Outcome) (b : Json) (jsonData : String)
    (chan : List SSEResponse) (st' : Store) (out' : List ClientWrite)
    (hbody : createRequestBody env cfg req = .ok (b, req'))
    (hmarshal : env.MarshalBody b = .ok jsonData)
    (hchan : run.DoSSE o.requests.length = .ok chan)
    (hloop : handleNonStreamRequest.sseLoop env cfg req' (run.clock o.requests.length) cookie
      jsonData chan "" o.store o.writes = (.retry, st', out'))
    (hnext : GetNextCookie cm = .ok (cookie', cm')) :
    handleNonStreamRequest.attempts env cfg run (remaining + 1) cookie cm req o =
      handleNonStreamRequest.attempts env cfg run remaining cookie' cm' req'
        ⟨st', out', o.requests ++ [(cookie, jsonData)], o.panicked⟩ := by
  simp [handleNonStreamRequest.attempts, hbody, hmarshal, MakeStreamChatRequest, hchan, hloop,
    hnext]

/-- When each of the `remaining` attempts ends on a quota-exceeded done event, the loop
evicts the credentials at positions `i`, `i+1`, ... (mod the view length) and ends exhausted. -/
theorem aggregate_attempts_quota (env : Env) (cfg : Config) (run : Run)
    (hmode : cfg.CustomHeaderKeyEnabled = false) (hb : BodiesBuild env cfg)
    (view : List String) (hv : view ≠ []) :
    ∀ (remaining i : Nat) (req : OpenAIChatCompletionRequest) (o : Outcome),
      i < view.length →
      (∀ j < remaining, ∃ chan, run.DoSSE (o.requests.length + j) = .ok chan ∧
        endsOnDone env (isQuotaExceeded env) chan) →
      (handleNonStreamRequest.attempts env cfg run remaining (view.getD i "") ⟨view, i⟩ req
          o).writes = o.writes ++ [.json 500 (.error "All cookies are temporarily unavailable.")] ∧
      (handleNonStreamRequest.attempts env cfg run remaining (view.getD i "") ⟨view, i⟩ req
          o).store.RVCookies = o.store.RVCookies.filter (fun x =>
            decide (x ∉ (List.range remaining).map (fun j => view.getD ((i + j) % view.length) ""))) ∧
      (handleNonStreamRequest.attempts env cfg run remaining (view.getD i "") ⟨view, i⟩ req
          o).store.rateLimitCookies = o.store.rateLimitCookies ∧
      (handleNonStreamRequest.attempts env cfg run remaining (view.getD i "") ⟨view, i⟩ req
          o).requests.length = o.requests.length + remaining := by
  have hl : 0 < view.length := List.length_pos.mpr hv
  intro remaining
  induction remaining with
  | zero => intro i req o _ _; simp [handleNonStreamRequest.attempts]
  | succ n ih =>
    intro i req o hi hq
    obtain ⟨b, req', hbody⟩ := createRequestBody_ok env cfg hb req
    obtain ⟨jsonData, hmarshal⟩ := hb.2 b
    obtain ⟨chan, hchan, hend⟩ := hq 0 (Nat.succ_pos n)
    simp only [Nat.add_zero] at hchan
    have hlt : (i + 1) % view.length < view.length := Nat.mod_lt _ hl
    rw [aggregate_attempts_retry env cfg run n _ _ _ _ req req' o b jsonData chan _ _
      hbody hmarshal hchan
      (aggregate_sseLoop_quota env cfg req' _ _ jsonData chan hend _ _ _)
      (GetNextCookie_ok view i hv)]
    have hq' : ∀ j < n, ∃ chan,
        run.DoSSE ((⟨RemoveCookie cfg (view.getD i "") o.store, o.writes,
          o.requests ++ [(view.getD i "", jsonData)], o.panicked⟩ : Outcome).requests.length + j)
            = .ok chan ∧ endsOnDone env (isQuotaExceeded env) chan := by
      intro j hj
      have := hq (j + 1) (Nat.succ_lt_succ hj)
      simpa [Nat.add_assoc, Nat.add_comm 1 j] using this
    obtain ⟨h1, h2, h3, h4⟩ := ih ((i + 1) % view.length) req' _ hlt hq'
    refine ⟨h1, ?_, ?_, ?_⟩
    · rw [h2]
      simp only [RemoveCookie_RVCookies cfg _ o.store hmode, List.filter_filter]
      apply List.filter_congr
      intro x _
      simp only [List.range_succ_eq_map, List.map_cons, List.map_map, List.mem_cons,
        Nat.add_zero, Nat.mod_eq_of_lt hi]
      have hfun : ((fun j => view.getD ((i + j) % view.length) "") ∘ Nat.succ) =
          (fun j => view.getD (((i + 1) % view.length + j) % view.length) "") := by
        funext j
        simp only [Function.comp, Nat.mod_add_mod]
        congr 2
        omega
      rw [hfun]
      by_cases hx : x = view.getD i "" <;> simp [hx, Bool.and_comm]
    · rw [h3]; exact RemoveCookie_rateLimitCookies cfg _ _
    · rw [h4]; simp; omega

theorem overrideCookies_off (cfg : Config) (run : Run) (cm : CookieManager)
    (hmode : cfg.CustomHeaderKeyEnabled = false) : overrideCookies cfg run cm = some cm := by
  simp [overrideCookies, hmode]

theorem GetRandomCookie_ok (rand : Nat) (view : List String) (i : Nat) (h : view ≠ []) :
    GetRandomCookie rand ⟨view, i⟩ =
      .ok (view.getD (rand % view.length) "", ⟨view, rand % view.length⟩) := by
  have hl : view.length ≠ 0 := by simpa using h
  have hlt : rand % view.length < view.length := Nat.mod_lt _ (Nat.pos_of_ne_zero hl)
  simp [GetRandomCookie, hl, List.getD_eq_getElem?_getD, List.getElem?_eq_getElem hlt]

theorem mem_rotation (view : List String) (i : Nat) (x : String) :
    x ∈ (List.range view.length).map (fun j => view.getD ((i + j) % view.length) "") ↔
      x ∈ view := by
  have hcomp : (List.range view.length).map (fun j => view.getD ((i + j) % view.length) "") =
      ((List.range view.length).map (fun j => (i + j) % view.length)).map
        (fun p => view.getD p "") := by
    simp [List.map_map, Function.comp]
  rw [hcomp, List.mem_map]
  constructor
  · rintro ⟨p, hp, rfl⟩
    have hp' : p < view.length :=
      List.mem_range.mp ((rotation_perm view.length i).mem_iff.mp hp)
    rw [List.getD_eq_getElem _ _ hp']
    exact List.getElem_mem _
  · intro hx
    obtain ⟨p, hp, rfl⟩ := List.getElem_of_mem hx
    refine ⟨p, (rotation_perm view.length i).mem_iff.mpr (List.mem_range.mpr hp), ?_⟩
    rw [List.getD_eq_getElem _ _ hp]

/-- C2: outside override mode, when every attempt of the aggregate handler ends
on a done event classified as quota exceeded, the only response is the HTTP
500 "All cookies are temporarily unavailable.", one upstream request was
issued per credential of the view, and the process-wide list is left without
any credential of the view (which were its entries when the list carries no
surrounding white space). -/
theorem quota_exhaustion (env : Env) (cfg : Config) (run : Run)
    (req : OpenAIChatCompletionRequest) (st : Store)
    (hmode : cfg.CustomHeaderKeyEnabled = false) (hb : BodiesBuild env cfg)
    (hview : (NewCookieManager run.start st).1.Cookies ≠ [])
    (hquota : ∀ k < (NewCookieManager run.start st).1.Cookies.length,
      ∃ chan, run.DoSSE k = .ok chan ∧ endsOnDone env (isQuotaExceeded env) chan) :
    (handleNonStreamRequest env cfg run req st).writes =
        [.json 500 (.error "All cookies are temporarily unavailable.")] ∧
      (handleNonStreamRequest env cfg run req st).store.RVCookies =
        st.RVCookies.filter
          (fun x => decide (x ∉ (NewCookieManager run.start st).1.Cookies)) ∧
      (∀ c ∈ (NewCookieManager run.start st).1.Cookies,
        c ∉ (handleNonStreamRequest env cfg run req st).store.RVCookies) ∧
      ((∀ x ∈ st.RVCookies, TrimSpace x = x) →
        ∀ c ∈ (NewCookieManager run.start st).1.Cookies, c ∈ st.RVCookies) ∧
      (handleNonStreamRequest env cfg run req st).requests.length =
        (NewCookieManager run.start st).1.Cookies.length := by
  have hl : 0 < (NewCookieManager run.start st).1.Cookies.length := List.length_pos.mpr hview
  have hcm : (NewCookieManager run.start st).1 = ⟨(NewCookieManager run.start st).1.Cookies, 0⟩ :=
    rfl
  have hrun : handleNonStreamRequest env cfg run req st =
      handleNonStreamRequest.attempts env cfg run (NewCookieManager run.start st).1.Cookies.length
        ((NewCookieManager run.start st).1.Cookies.getD
          (run.randCookie % (NewCookieManager run.start st).1.Cookies.length) "")
        ⟨(NewCookieManager run.start st).1.Cookies,
          run.randCookie % (NewCookieManager run.start st).1.Cookies.length⟩ req
        ⟨(NewCookieManager run.start st).2, [], [], false⟩ := by
    unfold handleNonStreamRequest
    simp only [overrideCookies_off cfg run _ hmode]
    rw [hcm, GetRandomCookie_ok _ _ _ hview]
  obtain ⟨h1, h2, _, h4⟩ := aggregate_attempts_quota env cfg run hmode hb _ hview
    (NewCookieManager run.start st).1.Cookies.length
    (run.randCookie % (NewCookieManager run.start st).1.Cookies.length) req
    ⟨(NewCookieManager run.start st).2, [], [], false⟩ (Nat.mod_lt _ hl)
    (by simpa using hquota)
  have hstore : (handleNonStreamRequest env cfg run req st).store.RVCookies =
      st.RVCookies.filter
        (fun x => decide (x ∉ (NewCookieManager run.start st).1.Cookies)) := by
    rw [hrun, h2]
    apply List.filter_congr
    intro x _
    simp only [mem_rotation, NewCookieManager_RVCookies]
  refine ⟨by rw [hrun, h1]; rfl, hstore, ?_, ?_, by rw [hrun, h4]; simp⟩
  · intro c hc hmem
    rw [hstore, List.mem_filter] at hmem
    simp [hc] at hmem
  · intro htrim c hc
    rw [NewCookieManager_cookies, List.mem_filter, List.mem_map] at hc
    obtain ⟨⟨x, hx, rfl⟩, _⟩ := hc
    rw [htrim x hx]; exact hx

theorem quota_exhaustion_witness :
    (handleNonStreamRequest sampleEnv sampleConfig quotaRun sampleRequest sampleStore).writes =
        [.json 500 (.error "All cookies are temporarily unavailable.")] ∧
      (handleNonStreamRequest sampleEnv sampleConfig quotaRun sampleRequest
        sampleStore).store.RVCookies = [] ∧
      (handleNonStreamRequest sampleEnv sampleConfig quotaRun sampleRequest
        sampleStore).requests = [("a", "user,"), ("b", "user,")] := by
  have h := quota_exhaustion sampleEnv sampleConfig quotaRun sampleRequest sampleStore rfl
    ⟨Or.inl rfl, fun b => ⟨sampleMarshalBody b, rfl⟩⟩
    (by decide)
    (fun k _ => ⟨[⟨200, "quota", true⟩], rfl, [], ⟨200, "quota", true⟩, [], rfl,
      by simp, rfl, by decide, by decide⟩)
  refine ⟨h.1, ?_, ?_⟩
  · rw [h.2.1]; decide
  · decide

theorem aggregate_attempts_returned (env : Env) (cfg : Config) (run : Run)
    (remaining : Nat) (cookie : String) (cm : CookieManager)
    (req req' : OpenAIChatCompletionRequest) (o : Outcome) (b : Json) (jsonData : String)
    (chan : List SSEResponse) (st' : Store) (out' : List ClientWrite)
    (hbody : createRequestBody env cfg req = .ok (b, req'))
    (hmarshal : env.MarshalBody b = .ok jsonData)
    (hchan : run.DoSSE o.requests.length = .ok chan)
    (hloop : handleNonStreamRequest.sseLoop env cfg req' (run.clock o.requests.length) cookie
      jsonData chan "" o.store o.writes = (.returned, st', out')) :
    handleNonStreamRequest.attempts env cfg run (remaining + 1) cookie cm req o =
      ⟨st', out', o.requests ++ [(cookie, jsonData)], o.panicked⟩ := by
  simp [handleNonStreamRequest.attempts, hbody, hmarshal, MakeStreamChatRequest, hchan, hloop]

theorem yieldsDeltas_frames (env : Env) (frames : List SSEResponse) (ds : List String)
    (h : List.Forall₂ (fun r d => r.Done = false ∧ r.Data ≠ "" ∧
      ∃ w, processNoStreamData env r.Data = .ok ⟨d, true, w⟩) frames ds) :
    (∀ r ∈ frames, passesOver env r) ∧ frames.map (deltaOf env) = ds := by
  induction h with
  | nil => simp
  | cons hrd _ ih =>
    obtain ⟨hd, hne, w, hp⟩ := hrd
    refine ⟨?_, ?_⟩
    · intro x hx
      rcases List.mem_cons.mp hx with rfl | hx
      · exact Or.inr ⟨hd, _, hp, rfl⟩
      · exact ih.1 x hx
    · simp [deltaOf, hne, hp, ih.2]

theorem aggregate_sseLoop_deltas (env : Env) (cfg : Config)
    (req : OpenAIChatCompletionRequest) (now : Time) (cookie jsonData : String)
    (ds : List String) (chan : List SSEResponse) (h : yieldsDeltas env ds chan)
    (st : Store) (out : List ClientWrite) :
    handleNonStreamRequest.sseLoop env cfg req now cookie jsonData chan "" st out =
      (.returned, st, out ++
        [.json 200 (.completion (completionResponse env now req jsonData (concatStrings ds)))]) := by
  obtain ⟨frames, term, post, rfl, hf, hd, hne, ht⟩ := h
  obtain ⟨hpass, hmap⟩ := yieldsDeltas_frames env frames ds hf
  rw [aggregate_sseLoop_passes env cfg req now cookie jsonData frames _ hpass, hmap]
  have he : "" ++ concatStrings ds = concatStrings ds := by
    apply String.ext; simp
  simp only [isSuccessTerminal] at ht
  simp [handleNonStreamRequest.sseLoop, hne, hd, ht, he]

theorem secondsDuration_fits (lock : Int) (h : lockFits lock) :
    secondsDuration lock = lock * 1000000000 := by
  obtain ⟨h1, h2⟩ := h
  unfold secondsDuration wrapInt64
  omega

/-- C3 as stated fails. With a lock duration of 10000000000 s the nanoseconds
of the duration wrap in `int64`, and the quarantine entry recorded for the
rate-limited credential expires before the clock reading of the attempt, not
the lock duration after it. And when the item that carries the success
terminal of the second stream is flagged as a done event, the handler
classifies it instead of extracting it and writes no response. -/
theorem long_lock_expiry_wraps :
    ((handleNonStreamRequest sampleEnv longLockConfig recoveryRun sampleRequest
        sampleStore).store.rateLimitCookies "a" = some (-8446743073709551616) ∧
      (-8446743073709551616 : Int) < recoveryRun.clock 0 ∧
      recoveryRun.clock 0 + longLockConfig.RateLimitCookieLockDuration * 1000000000 =
        10000001000000000000) ∧
    (processNoStreamData sampleEnv "data: [DONE]" = .ok ⟨"", false, []⟩ ∧
      (handleNonStreamRequest sampleEnv sampleConfig flaggedDoneRun sampleRequest
        sampleStore).writes = []) := by
  refine ⟨⟨rfl, by decide, by decide⟩, rfl, rfl⟩

/-- C3, amended: outside override mode, with the two-credential view `[a, b]`
and a lock duration whose nanoseconds fit `int64`, when request bodies build,
the first attempt reaches a done event with data classified as rate limited
and the second delivers, in frames that are not done events, the deltas `ds`
and then a success terminal (a frame, not a done event, on whose data the
extractor stops without an error response), the aggregate handler writes one
HTTP 200 completion whose message content is the concatenation of `ds` with
finish reason `stop`; the first credential has a quarantine entry expiring
the lock duration after the clock reading of its attempt, and the process-wide
list is unchanged, so that the credential is still in it when the entries of
the list carry no surrounding white space. -/
theorem rate_limit_recovery (env : Env) (cfg : Config) (run : Run)
    (req : OpenAIChatCompletionRequest) (st : Store) (a b : String) (ds : List String)
    (hmode : cfg.CustomHeaderKeyEnabled = false) (hb : BodiesBuild env cfg)
    (hfit : lockFits cfg.RateLimitCookieLockDuration)
    (hview : (NewCookieManager run.start st).1.Cookies = [a, b])
    (hfirst : ∃ chan, run.DoSSE 0 = .ok chan ∧ endsOnDone env (isRateLimited env) chan)
    (hsecond : ∃ chan, run.DoSSE 1 = .ok chan ∧ yieldsDeltas env ds chan) :
    (∃ resp, (handleNonStreamRequest env cfg run req st).writes =
          [.json 200 (.completion resp)] ∧
        resp.Object = "chat.completion" ∧
        resp.Choices.map (fun c => (c.Message.Role, c.Message.Content, c.FinishReason)) =
          [("assistant", concatStrings ds, some "stop")]) ∧
      (handleNonStreamRequest env cfg run req st).store.rateLimitCookies
          ([a, b].getD (run.randCookie % 2) "") =
        some (run.clock 0 + cfg.RateLimitCookieLockDuration * 1000000000) ∧
      (handleNonStreamRequest env cfg run req st).store.RVCookies = st.RVCookies ∧
      ((∀ x ∈ st.RVCookies, TrimSpace x = x) →
        [a, b].getD (run.randCookie % 2) "" ∈
          (handleNonStreamRequest env cfg run req st).store.RVCookies) ∧
      (handleNonStreamRequest env cfg run req st).requests.map Prod.fst =
        [[a, b].getD (run.randCookie % 2) "", [a, b].getD ((run.randCookie % 2 + 1) % 2) ""] := by
  obtain ⟨chan0, hchan0, hend0⟩ := hfirst
  obtain ⟨chan1, hchan1, hend1⟩ := hsecond
  obtain ⟨b0, req0, hbody0⟩ := createRequestBody_ok env cfg hb req
  obtain ⟨jd0, hm0⟩ := hb.2 b0
  obtain ⟨b1, req1, hbody1⟩ := createRequestBody_ok env cfg hb req0
  obtain ⟨jd1, hm1⟩ := hb.2 b1
  have hne : [a, b] ≠ [] := by simp
  have hcm : (NewCookieManager run.start st).1 = ⟨[a, b], 0⟩ := by
    rw [← hview]; rfl
  have hrun : handleNonStreamRequest env cfg run req st =
      ⟨AddRateLimitCookie cfg ([a, b].getD (run.randCookie % 2) "")
          (run.clock 0 + secondsDuration cfg.RateLimitCookieLockDuration)
          (NewCookieManager run.start st).2,
        [.json 200 (.completion (completionResponse env (run.clock 1) req1 jd1
          (concatStrings ds)))],
        [([a, b].getD (run.randCookie % 2) "", jd0),
          ([a, b].getD ((run.randCookie % 2 + 1) % 2) "", jd1)], false⟩ := by
    unfold handleNonStreamRequest
    simp only [overrideCookies_off cfg run _ hmode]
    rw [hcm, GetRandomCookie_ok _ _ _ hne]
    simp only [List.length_cons, List.length_nil, Nat.zero_add, Nat.reduceAdd]
    have step1 := aggregate_attempts_retry env cfg run 1
      ([a, b].getD (run.randCookie % 2) "") _ ⟨[a, b], run.randCookie % 2⟩ _ req req0
      ⟨(NewCookieManager run.start st).2, [], [], false⟩ b0 jd0 chan0 _ _
      hbody0 hm0 hchan0
      (aggregate_sseLoop_rateLimited env cfg req0 _ _ jd0 chan0 hend0 _ _ _)
      (GetNextCookie_ok [a, b] _ hne)
    have step2 := aggregate_attempts_returned env cfg run 0
      ([a, b].getD ((run.randCookie % 2 + 1) % 2) "") ⟨[a, b], (run.randCookie % 2 + 1) % 2⟩
      req0 req1
      ⟨AddRateLimitCookie cfg ([a, b].getD (run.randCookie % 2) "")
          (run.clock 0 + secondsDuration cfg.RateLimitCookieLockDuration)
          (NewCookieManager run.start st).2,
        [], [([a, b].getD (run.randCookie % 2) "", jd0)], false⟩ b1 jd1 chan1 _ _
      hbody1 hm1 hchan1
      (aggregate_sseLoop_deltas env cfg req1 _ _ jd1 ds chan1 hend1 _ _)
    simp only [List.nil_append, List.length_cons, List.length_nil, Nat.zero_add, Nat.reduceAdd,
      List.length_singleton] at step1 step2
    rw [step1, step2]
    simp
  have hpick : [a, b].getD (run.randCookie % 2) "" ∈ (NewCookieManager run.start st).1.Cookies := by
    rw [hview]
    have h2 : run.randCookie % 2 < 2 := Nat.mod_lt _ (by decide)
    interval_cases hr : run.randCookie % 2 <;> simp
  refine ⟨⟨completionResponse env (run.clock 1) req1 jd1 (concatStrings ds), by rw [hrun],
    rfl, rfl⟩, ?_, ?_, ?_, by rw [hrun]; rfl⟩
  · rw [hrun]
    simp [AddRateLimitCookie, hmode, syncStore, secondsDuration_fits _ hfit]
  · rw [hrun]
    simp only [AddRateLimitCookie_RVCookies, NewCookieManager_RVCookies]
  · intro htrim
    rw [hrun]
    simp only [AddRateLimitCookie_RVCookies, NewCookieManager_RVCookies]
    rw [NewCookieManager_cookies, List.mem_filter, List.mem_map] at hpick
    obtain ⟨⟨x, hx, hxe⟩, _⟩ := hpick
    rw [← hxe, htrim x hx]; exact hx

theorem rate_limit_recovery_witness :
    (handleNonStreamRequest sampleEnv sampleConfig recoveryRun sampleRequest sampleStore).writes =
        [.json 200 (.completion ⟨"chatcmpl-20250101000000", "chat.completion", 1001,
          "anthropic:claude-sonnet-4@20250514",
          [⟨0, ⟨"assistant", "Hello"⟩, some "stop", ⟨"", ""⟩⟩], ⟨5, 5, 10⟩⟩)] ∧
      (handleNonStreamRequest sampleEnv sampleConfig recoveryRun sampleRequest
        sampleStore).store.rateLimitCookies "a" = some 1600000000000 ∧
      (handleNonStreamRequest sampleEnv sampleConfig recoveryRun sampleRequest
        sampleStore).store.RVCookies = ["a", "b"] := by
  have h := rate_limit_recovery sampleEnv sampleConfig recoveryRun sampleRequest sampleStore
    "a" "b" ["Hel", "lo"] rfl ⟨Or.inl rfl, fun b => ⟨sampleMarshalBody b, rfl⟩⟩
    ⟨by decide, by decide⟩ (by decide)
    ⟨[⟨200, "rate", true⟩], rfl, [], ⟨200, "rate", true⟩, [], rfl, by simp, rfl, by decide,
      by decide⟩
    ⟨_, rfl, [⟨200, "data: text:Hel", false⟩, ⟨200, "data: text:lo\n", false⟩],
      ⟨200, "data: end", false⟩, [], rfl,
      List.Forall₂.cons ⟨rfl, by decide, [], rfl⟩
        (List.Forall₂.cons ⟨rfl, by decide, [], rfl⟩ List.Forall₂.nil),
      rfl, by decide, rfl⟩
  refine ⟨rfl, h.2.1, h.2.2.1⟩

/-! ## Request bodies across attempts -/

theorem transformMessages.loop_eq (sprint : Json → String) (msgs : List OpenAIChatMessage) :
    ∀ acc : List Json,
      transformMessages.loop sprint msgs acc =
        acc ++ msgs.map (transformMessages.message sprint) := by
  induction msgs with
  | nil => intro acc; simp [transformMessages.loop]
  | cons m ms ih => intro acc; simp [transformMessages.loop, ih]

theorem transformMessages_length (sprint : Json → String) (msgs : List OpenAIChatMessage) :
    (transformMessages sprint msgs).length = msgs.length := by
  simp [transformMessages, transformMessages.loop_eq]

theorem PrependMessagesFromJSON.insertIndex_le (msgs : List OpenAIChatMessage) :
    ∀ n, PrependMessagesFromJSON.insertIndex msgs n ≤ n := by
  intro n
  induction n with
  | zero => simp [PrependMessagesFromJSON.insertIndex]
  | succ i ih =>
    simp only [PrependMessagesFromJSON.insertIndex]
    split
    · split
      · exact Nat.le_refl _
      · exact Nat.le_succ_of_le ih
    · exact Nat.le_succ_of_le ih

theorem createRequestBody_prepend (env : Env) (cfg : Config) (r : OpenAIChatCompletionRequest)
    (ms : List OpenAIChatMessage) (hne : cfg.PRE_MESSAGES_JSON ≠ "")
    (hdec : env.UnmarshalMessages cfg.PRE_MESSAGES_JSON = .ok ms) :
    ∃ b r', createRequestBody env cfg r = .ok (b, r') ∧
      (bodyMessages b).length = r.Messages.length + ms.length ∧
      r'.Messages.length = r.Messages.length + ms.length := by
  have hle := PrependMessagesFromJSON.insertIndex_le r.Messages r.Messages.length
  refine ⟨_, _, by simp [createRequestBody, hne, PrependMessagesFromJSON, hdec]; exact ⟨rfl, rfl⟩,
    ?_, ?_⟩
  · simp only [bodyMessages, mapGet, asMap, asSlice, List.find?, decide_True, Option.getD]
    rw [transformMessages_length]
    split <;> simp <;> omega
  · split <;> simp <;> omega

/-- With a prepend JSON that decodes to the messages `ms`, the body built for
the next attempt from the request the previous call left holds `ms.length`
more messages than the body of the previous attempt. -/
theorem createRequestBody_reapplies (env : Env) (cfg : Config)
    (r : OpenAIChatCompletionRequest) (ms : List OpenAIChatMessage)
    (hne : cfg.PRE_MESSAGES_JSON ≠ "")
    (hdec : env.UnmarshalMessages cfg.PRE_MESSAGES_JSON = .ok ms) :
    ∃ b1 r1 b2 r2, createRequestBody env cfg r = .ok (b1, r1) ∧
      createRequestBody env cfg r1 = .ok (b2, r2) ∧
      (bodyMessages b2).length = (bodyMessages b1).length + ms.length := by
  obtain ⟨b1, r1, h1, hb1, hr1⟩ := createRequestBody_prepend env cfg r ms hne hdec
  obtain ⟨b2, r2, h2, hb2, _⟩ := createRequestBody_prepend env cfg r1 ms hne hdec
  exact ⟨b1, r1, b2, r2, h1, h2, by rw [hb2, hb1, hr1]⟩

/-- C4 at a two-credential pool with the prepend JSON decoding to one system
message, the first attempt rate limited: the body of the first attempt holds
the messages system, user, the body of the retry system, system, user. -/
theorem retry_duplicates_prepended_messages :
    (handleNonStreamRequest sampleEnv prependConfig recoveryRun sampleRequest
        sampleStore).requests = [("a", "system,user,"), ("b", "system,system,user,")] ∧
      (handleStreamRequest sampleEnv prependConfig recoveryRun sampleRequest
        sampleStore).requests = [("a", "system,user,"), ("b", "system,system,user,")] := by
  exact ⟨rfl, rfl⟩

/-! ## Override mode -/

theorem AddRateLimitCookie_override (cfg : Config) (c : String) (t : Time) (st : Store)
    (h : cfg.CustomHeaderKeyEnabled = true) : AddRateLimitCookie cfg c t st = st := by
  simp [AddRateLimitCookie, h]

theorem RemoveCookie_override (cfg : Config) (c : String) (st : Store)
    (h : cfg.CustomHeaderKeyEnabled = true) : RemoveCookie cfg c st = st := by
  simp [RemoveCookie, h]

theorem aggregate_sseLoop_store_override (env : Env) (cfg : Config)
    (req : OpenAIChatCompletionRequest) (now : Time) (cookie jsonData : String)
    (h : cfg.CustomHeaderKeyEnabled = true) (chan : List SSEResponse) :
    ∀ (acc : String) (st : Store) (out : List ClientWrite),
      (handleNonStreamRequest.sseLoop env cfg req now cookie jsonData chan acc st out).2.1 = st := by
  induction chan with
  | nil => intro acc st out; rfl
  | cons r rs ih =>
    intro acc st out
    simp only [handleNonStreamRequest.sseLoop]
    repeat' split
    all_goals first
      | rfl
      | exact ih _ _ _
      | simp [RemoveCookie_override, AddRateLimitCookie_override, h]

theorem aggregate_attempts_store_override (env : Env) (cfg : Config) (run : Run)
    (h : cfg.CustomHeaderKeyEnabled = true) :
    ∀ (remaining : Nat) (cookie : String) (cm : CookieManager)
      (req : OpenAIChatCompletionRequest) (o : Outcome),
      (handleNonStreamRequest.attempts env cfg run remaining cookie cm req o).store = o.store := by
  intro remaining
  induction remaining with
  | zero => intro cookie cm req o; rfl
  | succ n ih =>
    intro cookie cm req o
    simp only [handleNonStreamRequest.attempts]
    split
    · rfl
    · split
      · rfl
      · split
        · rfl
        · rename_i sseChan _
          split
          all_goals
            rename_i st' out' heq
            have hs := congrArg (fun t => t.2.1) heq
            simp only [aggregate_sseLoop_store_override env cfg _ _ _ _ h] at hs
          · exact hs.symm
          · exact hs.symm
          · exact hs.symm
          · split
            · exact hs.symm
            · rw [ih]; exact hs.symm

theorem stream_sseLoop_store_override (env : Env) (cfg : Config)
    (req : OpenAIChatCompletionRequest) (now : Time) (cookie responseId jsonData : String)
    (h : cfg.CustomHeaderKeyEnabled = true) (chan : List SSEResponse) :
    ∀ (st : Store) (out : List ClientWrite),
      (handleStreamRequest.sseLoop env cfg req now cookie responseId jsonData chan st out).2.1
        = st := by
  induction chan with
  | nil => intro st out; rfl
  | cons r rs ih =>
    intro st out
    simp only [handleStreamRequest.sseLoop]
    repeat' split
    all_goals first
      | rfl
      | exact ih _ _
      | simp [RemoveCookie_override, AddRateLimitCookie_override, h]

theorem stream_attempts_store_override (env : Env) (cfg : Config) (run : Run)
    (responseId : String) (h : cfg.CustomHeaderKeyEnabled = true) :
    ∀ (remaining : Nat) (s : StreamState),
      (handleStreamRequest.attempts env cfg run responseId remaining s).2.out.store =
        s.out.store := by
  intro remaining
  induction remaining with
  | zero => intro s; rfl
  | succ n ih =>
    intro s
    simp only [handleStreamRequest.attempts]
    split
    · rfl
    · split
      · rfl
      · split
        · rfl
        · rename_i sseChan _
          split
          all_goals
            rename_i st' out' heq
            have hs := congrArg (fun t => t.2.1) heq
            simp only [stream_sseLoop_store_override env cfg _ _ _ _ _ h] at hs
          · exact hs.symm
          · exact hs.symm
          · exact hs.symm
          · split
            · exact hs.symm
            · rw [ih]; exact hs.symm

theorem ginStream_invariant {σ : Type} (step : σ → Bool × σ) (P : σ → Prop)
    (hstep : ∀ s, P s → P (step s).2) : ∀ (polls : Nat) (s : σ), P s → P (ginStream step polls s) := by
  intro polls
  induction polls with
  | zero => intro s hs; exact hs
  | succ n ih =>
    intro s hs
    simp only [ginStream]
    split
    · exact ih _ (hstep s hs)
    · exact hstep s hs

theorem handleNonStreamRequest_store_override (env : Env) (cfg : Config) (run : Run)
    (req : OpenAIChatCompletionRequest) (st : Store) (h : cfg.CustomHeaderKeyEnabled = true) :
    (handleNonStreamRequest env cfg run req st).store = (NewCookieManager run.start st).2 := by
  unfold handleNonStreamRequest
  simp only
  split
  · rfl
  · split
    · rfl
    · rw [aggregate_attempts_store_override env cfg run h]

theorem handleStreamRequest_store_override (env : Env) (cfg : Config) (run : Run)
    (req : OpenAIChatCompletionRequest) (st : Store) (h : cfg.CustomHeaderKeyEnabled = true) :
    (handleStreamRequest env cfg run req st).store = (NewCookieManager run.start st).2 := by
  unfold handleStreamRequest
  simp only
  split
  · rfl
  · split
    · rfl
    · exact ginStream_invariant _
        (fun s : StreamState => s.out.store = (NewCookieManager run.start st).2)
        (fun s hs => by
          show (handleStreamRequest.attempts env cfg run _ _ s).2.out.store = _
          rw [stream_attempts_store_override env cfg run _ h]; exact hs) _ _ rfl

/-- C10: in override mode `AddRateLimitCookie` and `RemoveCookie` return the
store they were given, and a request handled by either handler, whatever the
upstream delivers, leaves the store as the construction of the view left it:
the process-wide list is the initial one and every quarantine entry present
afterwards was present before. -/
theorem override_mode_frame (env : Env) (cfg : Config) (run : Run)
    (req : OpenAIChatCompletionRequest) (st : Store) (c : String) (t : Time)
    (h : cfg.CustomHeaderKeyEnabled = true) :
    AddRateLimitCookie cfg c t st = st ∧ RemoveCookie cfg c st = st ∧
      (handleNonStreamRequest env cfg run req st).store = (NewCookieManager run.start st).2 ∧
      (handleStreamRequest env cfg run req st).store = (NewCookieManager run.start st).2 ∧
      (NewCookieManager run.start st).2.RVCookies = st.RVCookies ∧
      (∀ x e, (NewCookieManager run.start st).2.rateLimitCookies x = some e →
        st.rateLimitCookies x = some e) :=
  ⟨AddRateLimitCookie_override cfg c t st h, RemoveCookie_override cfg c st h,
    handleNonStreamRequest_store_override env cfg run req st h,
    handleStreamRequest_store_override env cfg run req st h, rfl,
    fun x e hx => NewCookieManager.loop_entries run.start _ _ _ x e hx⟩

theorem override_mode_frame_witness :
    (handleNonStreamRequest sampleEnv overrideConfig overrideRun sampleRequest
        sampleStore).store.RVCookies = ["a", "b"] ∧
      (handleNonStreamRequest sampleEnv overrideConfig overrideRun sampleRequest
        sampleStore).store.rateLimitCookies "k1" = none ∧
      (handleNonStreamRequest sampleEnv overrideConfig overrideRun sampleRequest
        sampleStore).requests = [("k1", "user,")] := by
  have h := override_mode_frame sampleEnv overrideConfig overrideRun sampleRequest sampleStore
    "k1" 1600 rfl
  refine ⟨?_, ?_, rfl⟩
  · rw [h.2.2.1]; rfl
  · rw [h.2.2.1]; rfl

/-! ## Responses written per request -/

theorem aggregate_sseLoop_writes (env : Env) (cfg : Config)
    (req : OpenAIChatCompletionRequest) (now : Time) (cookie jsonData : String)
    (chan : List SSEResponse)
    (hq : ∀ r ∈ chan, r.Data ≠ "" → r.Done = false →
      ∀ e, processNoStreamData env r.Data = .ok e → e.writes = []) :
    ∀ (acc : String) (st : Store) (out : List ClientWrite),
      ((handleNonStreamRequest.sseLoop env cfg req now cookie jsonData chan acc st out).2.2 = out ∨
        ∃ w, (handleNonStreamRequest.sseLoop env cfg req now cookie jsonData chan acc st out).2.2
          = out ++ [w]) ∧
      ((handleNonStreamRequest.sseLoop env cfg req now cookie jsonData chan acc st out).1 = .retry →
        (handleNonStreamRequest.sseLoop env cfg req now cookie jsonData chan acc st out).2.2
          = out) := by
  induction chan with
  | nil => intro acc st out; simp [handleNonStreamRequest.sseLoop]
  | cons r rs ih =>
    intro acc st out
    have hrs : ∀ x ∈ rs, x.Data ≠ "" → x.Done = false →
        ∀ e, processNoStreamData env x.Data = .ok e → e.writes = [] :=
      fun x hx => hq x (List.mem_cons_of_mem _ hx)
    by_cases hdata : r.Data = ""
    · simp only [handleNonStreamRequest.sseLoop, hdata, if_true]
      exact ih hrs _ _ _
    · by_cases hdone : r.Done = true
      · simp only [handleNonStreamRequest.sseLoop, hdata, if_false, hdone, if_true]
        repeat' split
        all_goals simp
      · have hdone' : r.Done = false := by simpa using hdone
        simp only [handleNonStreamRequest.sseLoop, hdata, if_false, hdone']
        cases hp : processNoStreamData env r.Data with
        | error p => simp
        | ok e =>
          have hw := hq r (List.mem_cons_self _ _) hdata hdone' e hp
          simp only [hw, List.append_nil, Bool.false_eq_true, if_false]
          split
          · simp
          · exact ih hrs _ _ _

theorem aggregate_attempts_writes (env : Env) (cfg : Config) (run : Run)
    (hq : ∀ k chan, run.DoSSE k = .ok chan → ∀ r ∈ chan, r.Data ≠ "" → r.Done = false →
      ∀ e, processNoStreamData env r.Data = .ok e → e.writes = []) :
    ∀ (remaining : Nat) (cookie : String) (cm : CookieManager)
      (req : OpenAIChatCompletionRequest) (o : Outcome),
      o.writes = [] →
      (handleNonStreamRequest.attempts env cfg run remaining cookie cm req o).writes.length ≤ 1 := by
  intro remaining
  induction remaining with
  | zero => intro cookie cm req o ho; simp [handleNonStreamRequest.attempts, ho]
  | succ n ih =>
    intro cookie cm req o ho
    simp only [handleNonStreamRequest.attempts]
    split
    · simp [ho]
    · rename_i requestBody req' hbody
      split
      · simp [ho]
      · rename_i jsonData hmarshal
        split
        · simp [ho]
        · rename_i sseChan hchan
          have hchan' : run.DoSSE o.requests.length = .ok sseChan := by
            unfold MakeStreamChatRequest at hchan
            split at hchan
            · cases hchan
            · rename_i heq; rw [heq]; cases hchan; rfl
          have hw := aggregate_sseLoop_writes env cfg req'
            (run.clock o.requests.length) cookie jsonData sseChan (hq _ _ hchan') "" o.store
            o.writes
          split
          all_goals
            rename_i st' out' heq
            rw [heq, ho] at hw
            simp only [List.nil_append] at hw
          · rcases hw.1 with h | ⟨w, h⟩ <;> simp [h]
          · rcases hw.1 with h | ⟨w, h⟩ <;> simp [h]
          · rcases hw.1 with h | ⟨w, h⟩ <;> simp [h]
          · have hout : out' = [] := hw.2 trivial
            split
            · simp [hout]
            · exact ih _ _ _ _ hout

theorem noJson_append (a b : List ClientWrite) (ha : noJson a) (hb : noJson b) :
    noJson (a ++ b) := by
  intro w hw
  rcases List.mem_append.mp hw with h | h
  · exact ha w h
  · exact hb w h

theorem noJson_jsonOnlyLast (a : List ClientWrite) (ha : noJson a) : jsonOnlyLast a :=
  fun w hw => ha w (List.mem_of_mem_dropLast hw)

theorem jsonOnlyLast_append (a b : List ClientWrite) (ha : noJson a) (hb : jsonOnlyLast b) :
    jsonOnlyLast (a ++ b) := by
  rcases List.eq_nil_or_concat b with rfl | ⟨l, x, rfl⟩
  · simpa using noJson_jsonOnlyLast a ha
  · intro w hw
    have hl : noJson l := by
      intro y hy
      apply hb y
      simpa [List.concat_eq_append] using hy
    rw [List.concat_eq_append, ← List.append_assoc, List.dropLast_concat] at hw
    exact noJson_append a l ha hl w hw

theorem jsonOnlyLast_concat (a : List ClientWrite) (w : ClientWrite) (ha : noJson a) :
    jsonOnlyLast (a ++ [w]) := by
  intro x hx
  rw [List.dropLast_concat] at hx
  exact ha x hx

theorem sendSSEvent_noJson (env : Env) (r : OpenAIChatCompletionResponse)
    (w : List ClientWrite) (h : sendSSEvent env r = .ok w) : noJson w := by
  unfold sendSSEvent at h
  split at h
  · cases h
  · cases h
    intro x hx
    simp at hx
    subst hx
    rfl

theorem handleMessageResult_noJson (env : Env) (now : Time)
    (responseId modelName jsonData : String) :
    noJson (handleMessageResult env now responseId modelName jsonData) := by
  unfold handleMessageResult
  simp only
  split
  · intro w hw; simp at hw
  · rename_i w heq
    apply noJson_append _ _ (sendSSEvent_noJson env _ w heq)
    intro x hx
    simp at hx
    subst hx
    rfl

theorem processStreamData.items_writes (env : Env) (now : Time)
    (responseId modelName jsonData : String) (items : List Json) :
    jsonOnlyLast (processStreamData.items env now responseId modelName jsonData items).writes ∧
      ((processStreamData.items env now responseId modelName jsonData items).shouldContinue = true →
        noJson (processStreamData.items env now responseId modelName jsonData items).writes) := by
  induction items with
  | nil =>
    simp only [processStreamData.items]
    exact ⟨fun w hw => by simp at hw, fun _ w hw => by simp at hw⟩
  | cons item rest ih =>
    simp only [processStreamData.items]
    repeat' split
    all_goals first
      | exact ih
      | skip
    · refine ⟨fun w hw => ?_, fun hc => ?_⟩
      · simp at hw
      · simp at hc
    · rename_i w heq
      have hn := sendSSEvent_noJson env _ w heq
      exact ⟨noJson_jsonOnlyLast _ hn, fun _ => hn⟩

theorem processStreamData_writes (env : Env) (now : Time)
    (data responseId modelName jsonData : String) (e : Extract)
    (h : processStreamData env now data responseId modelName jsonData = .ok e) :
    jsonOnlyLast e.writes ∧ (e.shouldContinue = true → noJson e.writes) := by
  unfold processStreamData at h
  simp only at h
  repeat' split at h
  all_goals first
    | (cases h
       first
         | exact processStreamData.items_writes env now responseId modelName jsonData _
         | exact ⟨noJson_jsonOnlyLast _ (handleMessageResult_noJson env now _ _ _),
             fun _ => handleMessageResult_noJson env now _ _ _⟩
         | (refine ⟨fun w hw => ?_, fun _ w hw => ?_⟩ <;> simp at hw <;> done)
         | (refine ⟨fun w hw => ?_, fun hc => ?_⟩
            · simp at hw
            · simp at hc))
    | cases h

theorem stream_sseLoop_writes (env : Env) (cfg : Config)
    (req : OpenAIChatCompletionRequest) (now : Time) (cookie responseId jsonData : String)
    (chan : List SSEResponse) (h403 : ∀ r ∈ chan, r.Status ≠ 403) :
    ∀ (st : Store) (out : List ClientWrite), noJson out →
      jsonOnlyLast
          (handleStreamRequest.sseLoop env cfg req now cookie responseId jsonData chan st out).2.2 ∧
        ((handleStreamRequest.sseLoop env cfg req now cookie responseId jsonData chan st out).1
            = .retry ∨
          (handleStreamRequest.sseLoop env cfg req now cookie responseId jsonData chan st out).1
            = .drained →
          noJson
            (handleStreamRequest.sseLoop env cfg req now cookie responseId jsonData chan st
              out).2.2) := by
  induction chan with
  | nil =>
    intro st out hout
    exact ⟨noJson_jsonOnlyLast _ hout, fun _ => hout⟩
  | cons r rs ih =>
    intro st out hout
    have hrs : ∀ x ∈ rs, x.Status ≠ 403 := fun x hx => h403 x (List.mem_cons_of_mem _ hx)
    have hr : r.Status ≠ 403 := h403 r (List.mem_cons_self _ _)
    simp only [handleStreamRequest.sseLoop, hr, if_false]
    split
    · exact ⟨noJson_jsonOnlyLast _ hout, fun _ => hout⟩
    · split
      · exact ih hrs _ _ hout
      · split
        · split
          · exact ⟨noJson_jsonOnlyLast _ hout, fun _ => hout⟩
          · split
            · refine ⟨jsonOnlyLast_concat _ _ hout, fun hc => ?_⟩
              rcases hc with hc | hc <;> cases hc
            · split
              · exact ⟨noJson_jsonOnlyLast _ hout, fun _ => hout⟩
              · split
                · exact ⟨noJson_jsonOnlyLast _ hout, fun _ => hout⟩
                · refine ⟨noJson_jsonOnlyLast _ hout, fun hc => ?_⟩
                  rcases hc with hc | hc <;> cases hc
        · split
          · refine ⟨noJson_jsonOnlyLast _ hout, fun hc => ?_⟩
            rcases hc with hc | hc <;> cases hc
          · rename_i e he
            have hw := processStreamData_writes env now _ responseId _ jsonData e he
            split
            · refine ⟨jsonOnlyLast_append _ _ hout hw.1, fun hc => ?_⟩
              rcases hc with hc | hc <;> cases hc
            · rename_i hcont
              have hcont' : e.shouldContinue = true := by simpa using hcont
              exact ih hrs _ _ (noJson_append _ _ hout (hw.2 hcont'))

theorem stream_attempts_writes (env : Env) (cfg : Config) (run : Run)
    (responseId : String)
    (h403 : ∀ k chan, run.DoSSE k = .ok chan → ∀ r ∈ chan, r.Status ≠ 403) :
    ∀ (remaining : Nat) (s : StreamState), noJson s.out.writes →
      jsonOnlyLast (handleStreamRequest.attempts env cfg run responseId remaining s).2.out.writes ∧
        ((handleStreamRequest.attempts env cfg run responseId remaining s).1 = true →
          noJson (handleStreamRequest.attempts env cfg run responseId remaining s).2.out.writes) := by
  intro remaining
  induction remaining with
  | zero =>
    intro s hs
    simp only [handleStreamRequest.attempts]
    exact ⟨jsonOnlyLast_concat _ _ hs, fun hc => by simp at hc⟩
  | succ n ih =>
    intro s hs
    simp only [handleStreamRequest.attempts]
    split
    · exact ⟨jsonOnlyLast_concat _ _ hs, fun hc => by simp at hc⟩
    · rename_i requestBody req' hbody
      split
      · exact ⟨jsonOnlyLast_concat _ _ hs, fun hc => by simp at hc⟩
      · rename_i jsonData hmarshal
        split
        · exact ⟨jsonOnlyLast_concat _ _ hs, fun hc => by simp at hc⟩
        · rename_i sseChan hchan
          have hchan' : run.DoSSE s.out.requests.length = .ok sseChan := by
            unfold MakeStreamChatRequest at hchan
            split at hchan
            · cases hchan
            · rename_i heq; rw [heq]; cases hchan; rfl
          have hw := stream_sseLoop_writes env cfg req'
            (run.clock s.out.requests.length) s.cookie responseId jsonData sseChan
            (h403 _ _ hchan') s.out.store s.out.writes hs
          split
          all_goals
            rename_i st' out' heq
            rw [heq] at hw
            simp only at hw
          · exact ⟨hw.1, fun hc => by simp at hc⟩
          · exact ⟨hw.1, fun _ => hw.2 (Or.inr trivial)⟩
          · exact ⟨hw.1, fun hc => by simp at hc⟩
          · have hout : noJson out' := hw.2 (Or.inl trivial)
            split
            · exact ⟨jsonOnlyLast_concat _ _ hout, fun hc => by simp at hc⟩
            · exact ih _ hout

theorem ginStream_final {σ : Type} (step : σ → Bool × σ) (I F : σ → Prop)
    (hIF : ∀ s, I s → F s)
    (hstep : ∀ s, I s → F (step s).2 ∧ ((step s).1 = true → I (step s).2)) :
    ∀ (polls : Nat) (s : σ), I s → F (ginStream step polls s) := by
  intro polls
  induction polls with
  | zero => intro s hs; exact hIF s hs
  | succ n ih =>
    intro s hs
    simp only [ginStream]
    split
    · rename_i hk
      exact ih _ ((hstep s hs).2 hk)
    · exact (hstep s hs).1

theorem handleNonStreamRequest_writes (env : Env) (cfg : Config) (run : Run)
    (req : OpenAIChatCompletionRequest) (st : Store)
    (hq : ∀ k chan, run.DoSSE k = .ok chan → ∀ r ∈ chan, r.Data ≠ "" → r.Done = false →
      ∀ e, processNoStreamData env r.Data = .ok e → e.writes = []) :
    (handleNonStreamRequest env cfg run req st).writes.length ≤ 1 := by
  unfold handleNonStreamRequest
  simp only
  split
  · simp
  · split
    · simp
    · exact aggregate_attempts_writes env cfg run hq _ _ _ _ _ rfl

theorem handleStreamRequest_writes (env : Env) (cfg : Config) (run : Run)
    (req : OpenAIChatCompletionRequest) (st : Store)
    (h403 : ∀ k chan, run.DoSSE k = .ok chan → ∀ r ∈ chan, r.Status ≠ 403) :
    jsonOnlyLast (handleStreamRequest env cfg run req st).writes := by
  unfold handleStreamRequest
  simp only
  split
  · intro w hw; simp at hw
  · split
    · intro w hw; simp at hw
    · exact ginStream_final _ (fun s : StreamState => noJson s.out.writes)
        (fun s : StreamState => jsonOnlyLast s.out.writes)
        (fun s hs => noJson_jsonOnlyLast _ hs)
        (fun s hs => stream_attempts_writes env cfg run _ h403 _ s hs) _ _
        (fun w hw => by simp at hw)

/-- C5 as stated fails: the aggregate handler, given a done event that no
classifier recognises, returns without writing any response. -/
theorem unknown_terminal_writes_nothing :
    (handleNonStreamRequest sampleEnv sampleConfig unknownRun sampleRequest sampleStore).writes
        = [] ∧
      (handleNonStreamRequest sampleEnv sampleConfig unknownRun sampleRequest
        sampleStore).requests = [("a", "user,")] := by
  exact ⟨rfl, rfl⟩

/-- C5, amended: in aggregate mode, when no frame draws an error response from
the extractor, a request writes at most one response; in streaming mode, when
no item carries transport status 403, a JSON response is written at most once
and nothing is written after it. -/
theorem single_response (env : Env) (cfg : Config) (run : Run)
    (req : OpenAIChatCompletionRequest) (st : Store) :
    ((∀ k chan, run.DoSSE k = .ok chan → ∀ r ∈ chan, r.Data ≠ "" → r.Done = false →
        ∀ e, processNoStreamData env r.Data = .ok e → e.writes = []) →
      (handleNonStreamRequest env cfg run req st).writes.length ≤ 1) ∧
    ((∀ k chan, run.DoSSE k = .ok chan → ∀ r ∈ chan, r.Status ≠ 403) →
      ∀ pre w post, (handleStreamRequest env cfg run req st).writes = pre ++ w :: post →
        w.isJson = true → post = []) := by
  refine ⟨handleNonStreamRequest_writes env cfg run req st, fun h403 pre w post hw hj => ?_⟩
  have hl := handleStreamRequest_writes env cfg run req st h403
  rw [hw] at hl
  by_contra hpost
  have hmem : w ∈ (pre ++ w :: post).dropLast := by
    obtain ⟨l, x, hx⟩ : ∃ l x, post = l ++ [x] := by
      rcases List.eq_nil_or_concat post with h | ⟨l, x, h⟩
      · exact absurd h hpost
      · exact ⟨l, x, by simpa [List.concat_eq_append] using h⟩
    rw [hx, ← List.cons_append, ← List.append_assoc, List.dropLast_concat]
    simp
  have := hl w hmem
  rw [hj] at this
  cases this

theorem single_response_witness :
    (handleNonStreamRequest sampleEnv sampleConfig recoveryRun sampleRequest
        sampleStore).writes.length ≤ 1 ∧
      (handleStreamRequest sampleEnv sampleConfig recoveryRun sampleRequest sampleStore).writes =
        [.sse " Hel|", .sse " lo|", .sse " |stop", .sse " [DONE]"] := by
  have h := single_response sampleEnv sampleConfig recoveryRun sampleRequest sampleStore
  refine ⟨h.1 ?_, rfl⟩
  intro k chan hk r hr hne hd e he
  by_cases hk0 : k = 0
  · subst hk0
    cases hk
    simp at hr
    subst hr
    cases hd
  · have hk' : recoveryRun.DoSSE k = .ok [⟨200, "data: text:Hel", false⟩,
        ⟨200, "data: text:lo\n", false⟩, ⟨200, "data: end", false⟩] := by
      simp [recoveryRun, hk0]
    rw [hk'] at hk
    cases hk
    simp only [List.mem_cons, List.mem_singleton, List.not_mem_nil, or_false] at hr
    rcases hr with rfl | rfl | rfl
    · have : processNoStreamData sampleEnv "data: text:Hel" = .ok ⟨"Hel", true, []⟩ := rfl
      rw [this] at he; cases he; rfl
    · have : processNoStreamData sampleEnv "data: text:lo\n" = .ok ⟨"lo", true, []⟩ := rfl
      rw [this] at he; cases he; rfl
    · have : processNoStreamData sampleEnv "data: end" = .ok ⟨"", false, []⟩ := rfl
      rw [this] at he; cases he; rfl

/-! ## Number of upstream requests -/

theorem aggregate_attempts_requests (env : Env) (cfg : Config) (run : Run) :
    ∀ (remaining : Nat) (cookie : String) (cm : CookieManager)
      (req : OpenAIChatCompletionRequest) (o : Outcome),
      (handleNonStreamRequest.attempts env cfg run remaining cookie cm req o).requests.length ≤
        o.requests.length + remaining := by
  intro remaining
  induction remaining with
  | zero => intro cookie cm req o; simp [handleNonStreamRequest.attempts]
  | succ n ih =>
    intro cookie cm req o
    simp only [handleNonStreamRequest.attempts]
    repeat' split
    all_goals first
      | simp
      | (refine Nat.le_trans (ih _ _ _ _) ?_; simp; omega)

/-- The aggregate handler issues at most as many upstream requests as the view
it computed at the start holds credentials. -/
theorem handleNonStreamRequest_requests_le (env : Env) (cfg : Config) (run : Run)
    (req : OpenAIChatCompletionRequest) (st : Store)
    (hmode : cfg.CustomHeaderKeyEnabled = false) :
    (handleNonStreamRequest env cfg run req st).requests.length ≤
      (NewCookieManager run.start st).1.Cookies.length := by
  unfold handleNonStreamRequest
  simp only [overrideCookies_off cfg run _ hmode]
  split
  · simp
  · rename_i cookie cm hr
    have hcm : cm.Cookies = (NewCookieManager run.start st).1.Cookies := by
      unfold GetRandomCookie at hr
      split at hr
      · cases hr
      · cases hr; rfl
    refine Nat.le_trans (aggregate_attempts_requests env cfg run _ _ _ _ _) ?_
    simp

/-- One call of the step function of the streaming handler issues at most
`maxRetries` upstream requests. -/
theorem stream_attempts_requests (env : Env) (cfg : Config) (run : Run)
    (responseId : String) :
    ∀ (remaining : Nat) (s : StreamState),
      (handleStreamRequest.attempts env cfg run responseId remaining s).2.out.requests.length ≤
        s.out.requests.length + remaining := by
  intro remaining
  induction remaining with
  | zero => intro s; simp [handleStreamRequest.attempts]
  | succ n ih =>
    intro s
    simp only [handleStreamRequest.attempts]
    repeat' split
    all_goals first
      | simp
      | (refine Nat.le_trans (ih _) ?_; simp; omega)

/-- C6 at the pool `["a"]` in streaming mode: each channel is closed without
an item, the step function returns true, `Stream` calls it again while the
client is connected, and three upstream requests are issued for a view of
one credential. -/
theorem stream_restart_exceeds_view :
    (NewCookieManager silentRun.start singleStore).1.Cookies = ["a"] ∧
      (handleStreamRequest sampleEnv sampleConfig silentRun sampleRequest singleStore).requests =
        [("a", "user,"), ("a", "user,"), ("a", "user,")] ∧
      (handleNonStreamRequest sampleEnv sampleConfig silentRun sampleRequest singleStore).requests =
        [("a", "user,")] := by
  exact ⟨rfl, rfl, rfl⟩

/-! ## Request validation and translation -/

theorem RemoveEmptyContentMessages_loop_keeps (msgs : List OpenAIChatMessage) :
    ∀ acc : List OpenAIChatMessage,
      RemoveEmptyContentMessages.loop msgs acc = acc ++ msgs.filter hasContent := by
  induction msgs with
  | nil => intro acc; simp [RemoveEmptyContentMessages.loop]
  | cons m ms ih =>
    intro acc
    unfold RemoveEmptyContentMessages.loop
    split <;> rename_i hc <;> simp [ih, List.filter_cons, hasContent, hc]

theorem RemoveEmptyContentMessages_messages (r : OpenAIChatCompletionRequest) :
    (RemoveEmptyContentMessages r).Messages = r.Messages.filter hasContent := by
  unfold RemoveEmptyContentMessages
  split
  · rename_i h
    have : r.Messages = [] := List.length_eq_zero.mp h
    simp [this]
  · simp [RemoveEmptyContentMessages_loop_keeps]

theorem RemoveEmptyContentMessages_fields (r : OpenAIChatCompletionRequest) :
    (RemoveEmptyContentMessages r).Model = r.Model ∧
      (RemoveEmptyContentMessages r).MaxTokens = r.MaxTokens ∧
      (RemoveEmptyContentMessages r).Stream = r.Stream ∧
      (RemoveEmptyContentMessages r).Temperature = r.Temperature ∧
      (RemoveEmptyContentMessages r).FrequencyPenalty = r.FrequencyPenalty ∧
      (RemoveEmptyContentMessages r).PresencePenalty = r.PresencePenalty ∧
      (RemoveEmptyContentMessages r).TopP = r.TopP := by
  unfold RemoveEmptyContentMessages
  split <;> exact ⟨rfl, rfl, rfl, rfl, rfl, rfl, rfl⟩

/-- C20: `RemoveEmptyContentMessages` keeps, in order, exactly the messages
whose content is not nil, not the empty string and not an empty array, and
applying it a second time changes nothing. -/
theorem RemoveEmptyContentMessages_idempotent (r : OpenAIChatCompletionRequest) :
    (RemoveEmptyContentMessages r).Messages = r.Messages.filter hasContent ∧
      (RemoveEmptyContentMessages (RemoveEmptyContentMessages r)).Messages =
        (RemoveEmptyContentMessages r).Messages ∧
      RemoveEmptyContentMessages (RemoveEmptyContentMessages r) = RemoveEmptyContentMessages r := by
  have h1 := RemoveEmptyContentMessages_messages r
  have h2 : (RemoveEmptyContentMessages (RemoveEmptyContentMessages r)).Messages =
      (RemoveEmptyContentMessages r).Messages := by
    rw [RemoveEmptyContentMessages_messages, h1, List.filter_filter]
    simp
  refine ⟨h1, h2, ?_⟩
  have hf := RemoveEmptyContentMessages_fields (RemoveEmptyContentMessages r)
  have hrest : ∀ a b : OpenAIChatCompletionRequest, a.Messages = b.Messages →
      a.Model = b.Model → a.Stream = b.Stream → a.MaxTokens = b.MaxTokens →
      a.Temperature = b.Temperature → a.FrequencyPenalty = b.FrequencyPenalty →
      a.PresencePenalty = b.PresencePenalty → a.TopP = b.TopP → a = b := by
    intro a b h1 h2 h3 h4 h5 h6 h7 h8
    cases a; cases b; simp_all
  exact hrest _ _ h2 hf.1 hf.2.2.1 hf.2.1 hf.2.2.2.1 hf.2.2.2.2.1 hf.2.2.2.2.2.1 hf.2.2.2.2.2.2

theorem PrependMessagesFromJSON.insertIndex_spec (msgs : List OpenAIChatMessage) :
    ∀ n, (∀ j m, PrependMessagesFromJSON.insertIndex msgs n ≤ j → j < n →
          msgs[j]? = some m → m.Role ≠ "system") ∧
        (PrependMessagesFromJSON.insertIndex msgs n = 0 ∨
          ∃ m, msgs[PrependMessagesFromJSON.insertIndex msgs n - 1]? = some m ∧
            m.Role = "system") := by
  intro n
  induction n with
  | zero =>
    refine ⟨fun j m _ hj => absurd hj (Nat.not_lt_zero j), Or.inl rfl⟩
  | succ i ih =>
    simp only [PrependMessagesFromJSON.insertIndex]
    split
    · rename_i m hm
      split
      · rename_i hsys
        refine ⟨fun j m' h1 h2 => by omega, Or.inr ⟨m, by simpa using hm, hsys⟩⟩
      · rename_i hsys
        refine ⟨fun j m' h1 h2 hj => ?_, ih.2⟩
        by_cases hji : j = i
        · subst hji
          rw [hm] at hj
          cases hj
          exact hsys
        · exact ih.1 j m' h1 (by omega) hj
    · rename_i hnone
      refine ⟨fun j m' h1 h2 hj => ?_, ih.2⟩
      by_cases hji : j = i
      · subst hji
        rw [hnone] at hj
        cases hj
      · exact ih.1 j m' h1 (by omega) hj

/-- C15: when the JSON decodes to `N`, `PrependMessagesFromJSON` sets the
messages to `M[0..k) ++ N ++ M[k..]`, where every message of `M` at index `k`
or later has a role other than "system" and either `k = 0` with no system
message in `M`, or `M[k-1]` has role "system"; the two parts of `M` are `M`
itself; on a decode error the error is returned and no request is produced. -/
theorem PrependMessagesFromJSON_inserts
    (unmarshal : String → Except String (List OpenAIChatMessage))
    (r : OpenAIChatCompletionRequest) (jsonString : String) :
    (∀ N, unmarshal jsonString = .ok N →
      ∃ k, PrependMessagesFromJSON unmarshal r jsonString =
          .ok { r with Messages := r.Messages.take k ++ (N ++ r.Messages.drop k) } ∧
        k ≤ r.Messages.length ∧
        r.Messages.take k ++ r.Messages.drop k = r.Messages ∧
        (∀ j m, k ≤ j → r.Messages[j]? = some m → m.Role ≠ "system") ∧
        ((k = 0 ∧ ∀ m ∈ r.Messages, m.Role ≠ "system") ∨
          (0 < k ∧ ∃ m, r.Messages[k - 1]? = some m ∧ m.Role = "system"))) ∧
      (∀ err, unmarshal jsonString = .error err →
        PrependMessagesFromJSON unmarshal r jsonString = .error err) := by
  refine ⟨fun N hN => ?_, fun err herr => by simp [PrependMessagesFromJSON, herr]⟩
  have hspec := PrependMessagesFromJSON.insertIndex_spec r.Messages r.Messages.length
  have hle := PrependMessagesFromJSON.insertIndex_le r.Messages r.Messages.length
  have hlater : ∀ j m, PrependMessagesFromJSON.insertIndex r.Messages r.Messages.length ≤ j →
      r.Messages[j]? = some m → m.Role ≠ "system" := by
    intro j m hj hm
    have hjlt : j < r.Messages.length := by
      by_contra hge
      rw [List.getElem?_eq_none (by omega)] at hm
      cases hm
    exact hspec.1 j m hj hjlt hm
  refine ⟨PrependMessagesFromJSON.insertIndex r.Messages r.Messages.length,
    by simp [PrependMessagesFromJSON, hN], hle, List.take_append_drop _ _, hlater, ?_⟩
  rcases hspec.2 with h0 | ⟨m, hm, hsys⟩
  · left
    refine ⟨h0, fun m hm => ?_⟩
    obtain ⟨j, hj, rfl⟩ := List.getElem_of_mem hm
    exact hlater j _ (by omega) (List.getElem?_eq_getElem hj)
  · right
    refine ⟨?_, m, hm, hsys⟩
    by_contra h0
    have hz : PrependMessagesFromJSON.insertIndex r.Messages r.Messages.length = 0 := by omega
    rw [hz] at hm
    have := hlater 0 m (by omega) (by simpa using hm)
    exact this hsys

theorem PrependMessagesFromJSON_inserts_witness :
    PrependMessagesFromJSON sampleEnv.UnmarshalMessages
        { sampleRequest with Messages := [⟨"system", .str "s"⟩, ⟨"user", .str "u"⟩] } "pre" =
      .ok { sampleRequest with Messages :=
        [⟨"system", .str "s"⟩, ⟨"system", .str "be brief"⟩, ⟨"user", .str "u"⟩] } := by
  obtain ⟨k, hk, _, _, hlater, hkk⟩ :=
    (PrependMessagesFromJSON_inserts sampleEnv.UnmarshalMessages
      { sampleRequest with Messages := [⟨"system", .str "s"⟩, ⟨"user", .str "u"⟩] } "pre").1
      [⟨"system", .str "be brief"⟩] rfl
  rw [hk]
  have hk1 : k = 1 := by
    rcases hkk with ⟨_, hno⟩ | ⟨hpos, m, hm, hsys⟩
    · exact absurd rfl (hno ⟨"system", .str "s"⟩ (by simp))
    · by_contra hne
      have h2 : 2 ≤ k := by omega
      have hlen : k - 1 < 2 := by
        by_contra hge
        rw [List.getElem?_eq_none (by simpa using hge)] at hm
        cases hm
      have hk2 : k = 2 := by omega
      subst hk2
      simp at hm
      subst hm
      simp at hsys
  subst hk1
  rfl

theorem GetModelInfo_none (modelName : String)
    (h : modelName ∉ ModelRegistry.map Prod.fst) : GetModelInfo modelName = none := by
  unfold GetModelInfo
  have hfind : ModelRegistry.find? (fun kv => decide (kv.1 = modelName)) = none := by
    rw [List.find?_eq_none]
    intro kv hkv hk
    apply h
    rw [List.mem_map]
    exact ⟨kv, hkv, by simpa using hk⟩
  rw [hfind]

/-- C13: a request whose model is not a key of the registry is answered with
HTTP 400 and code `invalid_model`, one whose `max_tokens` exceeds the ceiling
registered for its model with HTTP 400 and code `invalid_max_tokens`; in both
cases that is the only write, no upstream request is issued and the store is
the one the call was given. -/
theorem ChatForOpenAI_rejects (env : Env) (cfg : Config) (run : Run)
    (req : OpenAIChatCompletionRequest) (st : Store) :
    (req.Model ∉ ModelRegistry.map Prod.fst →
      ChatForOpenAI env cfg run (.ok req) st =
        ⟨st, [.json 400 (.openAIError ⟨"Model " ++ req.Model ++ " not supported",
          "invalid_request_error", "invalid_model"⟩)], [], false⟩) ∧
    (∀ info, GetModelInfo req.Model = some info → req.MaxTokens > info.MaxTokens →
      ChatForOpenAI env cfg run (.ok req) st =
        ⟨st, [.json 400 (.openAIError ⟨"Max tokens " ++ toString req.MaxTokens ++
          " exceeds limit " ++ toString info.MaxTokens,
          "invalid_request_error", "invalid_max_tokens"⟩)], [], false⟩) := by
  have hf := RemoveEmptyContentMessages_fields req
  refine ⟨fun hkey => ?_, fun info hinfo hgt => ?_⟩
  · simp only [ChatForOpenAI, hf.1, GetModelInfo_none _ hkey]
  · simp only [ChatForOpenAI, hf.1, hf.2.1, hinfo]
    simp [hgt]

theorem ChatForOpenAI_rejects_witness :
    ChatForOpenAI sampleEnv sampleConfig quotaRun (.ok { sampleRequest with Model := "gpt-4" })
        sampleStore =
      ⟨sampleStore, [.json 400 (.openAIError ⟨"Model gpt-4 not supported",
        "invalid_request_error", "invalid_model"⟩)], [], false⟩ ∧
    ChatForOpenAI sampleEnv sampleConfig quotaRun
        (.ok { sampleRequest with MaxTokens := 200001 }) sampleStore =
      ⟨sampleStore, [.json 400 (.openAIError ⟨"Max tokens 200001 exceeds limit 200000",
        "invalid_request_error", "invalid_max_tokens"⟩)], [], false⟩ := by
  constructor
  · rw [(ChatForOpenAI_rejects sampleEnv sampleConfig quotaRun
      { sampleRequest with Model := "gpt-4" } sampleStore).1 (by decide)]
    rfl
  · rw [(ChatForOpenAI_rejects sampleEnv sampleConfig quotaRun
      { sampleRequest with MaxTokens := 200001 } sampleStore).2 ⟨"claude-sonnet-4@20250514", 200000⟩
      rfl (by decide)]
    rfl

theorem createRequestBody_maxTokens (env : Env) (cfg : Config)
    (req : OpenAIChatCompletionRequest) (h : PrependDecodes env cfg) :
    ∃ b r', createRequestBody env cfg req = .ok (b, r') ∧
      bodyMaxTokens b =
        some (.num ((if req.MaxTokens ≤ 1 then (8192 : Int) else req.MaxTokens : Int) : Rat)) := by
  have key : match createRequestBody env cfg req with
      | .ok (b, _) => bodyMaxTokens b =
          some (.num ((if req.MaxTokens ≤ 1 then (8192 : Int) else req.MaxTokens : Int) : Rat))
      | .error _ => False := by
    by_cases hp : cfg.PRE_MESSAGES_JSON = ""
    · by_cases hle : req.MaxTokens ≤ 1 <;>
        simp [createRequestBody, hp, hle, bodyMaxTokens, mapGet, asMap]
    · rcases h with h | ⟨ms, hms⟩
      · exact absurd h hp
      · by_cases hle : req.MaxTokens ≤ 1 <;>
          simp [createRequestBody, hp, PrependMessagesFromJSON, hms, hle, bodyMaxTokens, mapGet,
            asMap]
  cases hc : createRequestBody env cfg req with
  | error e => rw [hc] at key; exact key.elim
  | ok p =>
    obtain ⟨b, r'⟩ := p
    rw [hc] at key
    exact ⟨b, r', rfl, key⟩

/-- C14 as stated fails at `max_tokens = 1`: the caller's value is positive and
the body carries 8192. -/
theorem max_tokens_one_replaced :
    ∃ b r', createRequestBody sampleEnv sampleConfig { sampleRequest with MaxTokens := 1 } =
        .ok (b, r') ∧ bodyMaxTokens b = some (.num 8192) ∧ bodyMaxTokens b ≠ some (.num 1) ∧
      r'.MaxTokens = 8192 :=
  ⟨_, _, rfl, rfl, by
    intro h
    have h' : some (Json.num 8192) = some (Json.num 1) := h
    injection h' with h'
    injection h' with h'
    norm_num at h', rfl⟩

/-- C14, amended: whenever the body is built, the `max_tokens` it carries is
8192 when the caller's value is at most 1 and the caller's own value when it
is 2 or more. -/
theorem createRequestBody_max_tokens (env : Env) (cfg : Config)
    (req : OpenAIChatCompletionRequest) (h : PrependDecodes env cfg) :
    ∃ b r', createRequestBody env cfg req = .ok (b, r') ∧
      (req.MaxTokens ≤ 1 → bodyMaxTokens b = some (.num 8192)) ∧
      (2 ≤ req.MaxTokens → bodyMaxTokens b = some (.num req.MaxTokens)) := by
  obtain ⟨b, r', hb, hm⟩ := createRequestBody_maxTokens env cfg req h
  refine ⟨b, r', hb, fun hle => ?_, fun hge => ?_⟩
  · rw [hm]; simp [hle]
  · rw [hm]
    have : ¬ req.MaxTokens ≤ 1 := by omega
    simp [this]

theorem createRequestBody_max_tokens_witness :
    ∃ b r', createRequestBody sampleEnv sampleConfig sampleRequest = .ok (b, r') ∧
      bodyMaxTokens b = some (.num 100) := by
  obtain ⟨b, r', hb, _, h2⟩ :=
    createRequestBody_max_tokens sampleEnv sampleConfig sampleRequest (Or.inl rfl)
  exact ⟨b, r', hb, h2 (by decide)⟩

/-! ## Frame extraction -/

theorem isEndTurn_other (v : Option Json)
    (h : ∀ x, v = some x → x = .null ∨ ∃ r, x = .str r ∧ r ≠ "end_turn") :
    isEndTurn v = .ok false := by
  cases v with
  | none => rfl
  | some x =>
    rcases h x rfl with rfl | ⟨r, rfl, hr⟩
    · rfl
    · simp [isEndTurn, hr]

/-- C19: `transformMessages` turns a message whose content is the plain string
`s` into the content array holding the one text item `s`, and
`processNoStreamData`, given a frame that decodes to a payload whose first
choice has no `end_turn` finish reason and carries that array as its message
content, returns `s` with continue = true and writes nothing. -/
theorem plain_text_round_trip (env : Env) (role s data : String)
    (event payload choice message : List (String × Json)) (rest : List Json)
    (hframe : TrimPrefix (TrimSpace data) "data: " ≠ "[DONE]")
    (hdec : env.UnmarshalEvent (TrimPrefix (TrimSpace data) "data: ") = .ok event)
    (hpayload : asMap (mapGet event "response_payload") = some payload)
    (hchoices : asSlice (mapGet payload "choices") = some (.obj choice :: rest))
    (hfin : ∀ v, mapGet choice "finish_reason" = some v →
      v = .null ∨ ∃ r, v = .str r ∧ r ≠ "end_turn")
    (hmsg : asMap (mapGet choice "message") = some message)
    (hcontent : mapGet message "content" = some (.arr [textItem s])) :
    transformMessages env.Sprint [⟨role, .str s⟩] =
        [.obj [("role", .str role), ("content", .arr [textItem s])]] ∧
      processNoStreamData env data = .ok ⟨s, true, []⟩ := by
  refine ⟨rfl, ?_⟩
  have hs : "" ++ s = s := by apply String.ext; simp
  unfold processNoStreamData
  simp only [hframe, if_false, hdec, hpayload, hchoices, isEndTurn_other _ hfin, hmsg, hcontent]
  simp [asSlice, processNoStreamData.text, textItem, mapGet, asString, hs]

theorem plain_text_round_trip_witness :
    transformMessages sampleEnv.Sprint [⟨"user", .str "hi"⟩] =
        [.obj [("role", .str "user"), ("content", .arr [textItem "hi"])]] ∧
      processNoStreamData sampleEnv "data: text:hi" = .ok ⟨"hi", true, []⟩ :=
  plain_text_round_trip sampleEnv "user" "hi" "data: text:hi"
    [("response_payload", .obj [("choices", .arr [.obj [("message",
      .obj [("content", .arr [textItem "hi"])])]])])]
    [("choices", .arr [.obj [("message", .obj [("content", .arr [textItem "hi"])])]])]
    [("message", .obj [("content", .arr [textItem "hi"])])]
    [("content", .arr [textItem "hi"])] []
    (by decide) rfl rfl rfl (fun v hv => by simp [mapGet] at hv) rfl rfl

/-! ## Transport status and terminal classes in the attempt loops -/

theorem GetNextCookie_next (cm : CookieManager) (h : cm.Cookies ≠ []) :
    GetNextCookie cm = .ok (nextCookie cm, nextManager cm) :=
  GetNextCookie_ok cm.Cookies cm.currentIndex h

theorem stream_sseLoop_passes (env : Env) (cfg : Config)
    (req : OpenAIChatCompletionRequest) (now : Time) (cookie responseId jsonData : String)
    (pre rest : List SSEResponse)
    (hpre : ∀ r ∈ pre, streamPassesOver env now responseId req.Model jsonData r) :
    ∀ (st : Store) (out : List ClientWrite),
      handleStreamRequest.sseLoop env cfg req now cookie responseId jsonData (pre ++ rest) st out =
        handleStreamRequest.sseLoop env cfg req now cookie responseId jsonData rest st
          (out ++ streamWrites env now responseId req.Model jsonData pre) := by
  induction pre with
  | nil => intro st out; simp [streamWrites]
  | cons r rs ih =>
    intro st out
    obtain ⟨h403, h401, hr⟩ := hpre r (List.mem_cons_self _ _)
    have hrs : ∀ x ∈ rs, streamPassesOver env now responseId req.Model jsonData x :=
      fun x hx => hpre x (List.mem_cons_of_mem _ hx)
    have hw : out ++ streamWrites env now responseId req.Model jsonData (r :: rs) =
        (out ++ streamWritesOf env now responseId req.Model jsonData r) ++
          streamWrites env now responseId req.Model jsonData rs := by
      simp [streamWrites]
    rw [hw, List.cons_append]
    by_cases hdata : r.Data = ""
    · simp only [handleStreamRequest.sseLoop, h403, h401, hdata, if_false, if_true]
      rw [ih hrs]
      simp [streamWritesOf, hdata]
    · rcases hr with hr | ⟨hd, e, he, hc⟩
      · exact absurd hr hdata
      · simp only [handleStreamRequest.sseLoop, h403, h401, hdata, if_false, hd, he, hc,
          Bool.not_true, Bool.false_eq_true]
        rw [ih hrs]
        simp [streamWritesOf, hdata, he]

theorem stream_attempts_retry (env : Env) (cfg : Config) (run : Run) (responseId : String)
    (remaining : Nat) (s : StreamState) (req' : OpenAIChatCompletionRequest) (b : Json)
    (jsonData : String) (chan : List SSEResponse) (st' : Store) (out' : List ClientWrite)
    (hbody : createRequestBody env cfg s.openAIReq = .ok (b, req'))
    (hmarshal : env.MarshalBody b = .ok jsonData)
    (hchan : run.DoSSE s.out.requests.length = .ok chan)
    (hloop : handleStreamRequest.sseLoop env cfg req' (run.clock s.out.requests.length) s.cookie
      responseId jsonData chan s.out.store s.out.writes = (.retry, st', out'))
    (hview : s.cookieManager.Cookies ≠ []) :
    handleStreamRequest.attempts env cfg run responseId (remaining + 1) s =
      handleStreamRequest.attempts env cfg run responseId remaining
        ⟨nextCookie s.cookieManager, nextManager s.cookieManager, req',
          ⟨st', out', s.out.requests ++ [(s.cookie, jsonData)], s.out.panicked⟩⟩ := by
  simp [handleStreamRequest.attempts, hbody, hmarshal, MakeStreamChatRequest, hchan, hloop,
    GetNextCookie_next _ hview]

theorem aggregate_attempts_next (env : Env) (cfg : Config) (run : Run)
    (remaining : Nat) (cookie : String) (cm : CookieManager)
    (req req' : OpenAIChatCompletionRequest) (o : Outcome) (b : Json) (jsonData : String)
    (chan : List SSEResponse) (st' : Store) (out' : List ClientWrite)
    (hbody : createRequestBody env cfg req = .ok (b, req'))
    (hmarshal : env.MarshalBody b = .ok jsonData)
    (hchan : run.DoSSE o.requests.length = .ok chan)
    (hloop : handleNonStreamRequest.sseLoop env cfg req' (run.clock o.requests.length) cookie
      jsonData chan "" o.store o.writes = (.retry, st', out'))
    (hview : cm.Cookies ≠ []) :
    handleNonStreamRequest.attempts env cfg run (remaining + 1) cookie cm req o =
      handleNonStreamRequest.attempts env cfg run remaining (nextCookie cm) (nextManager cm) req'
        ⟨st', out', o.requests ++ [(cookie, jsonData)], o.panicked⟩ :=
  aggregate_attempts_retry env cfg run remaining cookie _ cm _ req req' o b jsonData chan st' out'
    hbody hmarshal hchan hloop (GetNextCookie_next cm hview)

theorem stream_sseLoop_status (env : Env) (cfg : Config)
    (req : OpenAIChatCompletionRequest) (now : Time) (cookie responseId jsonData : String)
    (r : SSEResponse) (rest : List SSEResponse) (st : Store) (out : List ClientWrite)
    (h : r.Status = 403 ∨ r.Status = 401) :
    ∃ out', handleStreamRequest.sseLoop env cfg req now cookie responseId jsonData (r :: rest) st
        out = (.retry, RemoveCookie cfg cookie st, out') := by
  rcases h with h | h
  · exact ⟨out ++ [.json 403 (.error "Forbidden")], by simp [handleStreamRequest.sseLoop, h]⟩
  · exact ⟨out, by simp [handleStreamRequest.sseLoop, h]⟩

/-- C11 as stated fails: in the streaming handler a transport status 401 on the
attempt with credential `"a"` removes `"a"` from the process-wide list. -/
theorem status_401_evicts :
    (handleStreamRequest sampleEnv sampleConfig unauthorizedRun sampleRequest
        sampleStore).store.RVCookies = ["b"] ∧
      (handleStreamRequest sampleEnv sampleConfig unauthorizedRun sampleRequest
        sampleStore).requests = [("a", "user,"), ("b", "user,")] := by
  exact ⟨rfl, rfl⟩

/-- In the aggregate handler an item with transport status 403 and no data is
skipped: nothing is evicted and no further credential is tried. -/
theorem aggregate_ignores_status :
    (handleNonStreamRequest sampleEnv sampleConfig forbiddenRun sampleRequest
        sampleStore).store.RVCookies = ["a", "b"] ∧
      (handleNonStreamRequest sampleEnv sampleConfig forbiddenRun sampleRequest
        sampleStore).requests = [("a", "user,")] ∧
      (handleNonStreamRequest sampleEnv sampleConfig forbiddenRun sampleRequest
        sampleStore).writes = [] := by
  exact ⟨rfl, rfl, rfl⟩

/-- C11, amended: in the streaming handler, when the channel of an attempt
delivers, after frames the loop passes over, an item with transport status 403
or 401, the attempt loop continues with the next credential of the view and
the store `RemoveCookie` leaves for the current one: outside override mode the
list without the entries equal to it, and the quarantine mapping unchanged. -/
theorem stream_status_evicts (env : Env) (cfg : Config) (run : Run) (responseId : String)
    (remaining : Nat) (s : StreamState) (req' : OpenAIChatCompletionRequest) (b : Json)
    (jsonData : String) (pre : List SSEResponse) (r : SSEResponse) (post : List SSEResponse)
    (hbody : createRequestBody env cfg s.openAIReq = .ok (b, req'))
    (hmarshal : env.MarshalBody b = .ok jsonData)
    (hchan : run.DoSSE s.out.requests.length = .ok (pre ++ r :: post))
    (hpre : ∀ x ∈ pre, streamPassesOver env (run.clock s.out.requests.length) responseId
      req'.Model jsonData x)
    (hstatus : r.Status = 403 ∨ r.Status = 401)
    (hview : s.cookieManager.Cookies ≠ []) :
    (∃ out', handleStreamRequest.attempts env cfg run responseId (remaining + 1) s =
        handleStreamRequest.attempts env cfg run responseId remaining
          ⟨nextCookie s.cookieManager, nextManager s.cookieManager, req',
            ⟨RemoveCookie cfg s.cookie s.out.store, out',
              s.out.requests ++ [(s.cookie, jsonData)], s.out.panicked⟩⟩) ∧
      (cfg.CustomHeaderKeyEnabled = false →
        (RemoveCookie cfg s.cookie s.out.store).RVCookies =
          s.out.store.RVCookies.filter (fun x => decide (x ≠ s.cookie))) ∧
      (RemoveCookie cfg s.cookie s.out.store).rateLimitCookies =
        s.out.store.rateLimitCookies := by
  refine ⟨?_, fun hmode => RemoveCookie_RVCookies cfg _ _ hmode,
    RemoveCookie_rateLimitCookies cfg _ _⟩
  obtain ⟨out', hloop⟩ := stream_sseLoop_status env cfg req' (run.clock s.out.requests.length)
    s.cookie responseId jsonData r post s.out.store
    (s.out.writes ++ streamWrites env (run.clock s.out.requests.length) responseId req'.Model
      jsonData pre) hstatus
  refine ⟨out', stream_attempts_retry env cfg run responseId remaining s req' b jsonData _ _ _
    hbody hmarshal hchan ?_ hview⟩
  rw [stream_sseLoop_passes env cfg req' _ _ responseId jsonData pre _ hpre]
  exact hloop

theorem stream_status_evicts_witness :
    (RemoveCookie sampleConfig "a" sampleStore).RVCookies = ["b"] ∧
      ∃ out', handleStreamRequest.attempts sampleEnv sampleConfig unauthorizedRun "id" 2
          sampleStreamState =
        handleStreamRequest.attempts sampleEnv sampleConfig unauthorizedRun "id" 1
          ⟨"b", ⟨["a", "b"], 1⟩, sampleRequest,
            ⟨RemoveCookie sampleConfig "a" sampleStore, out', [("a", "user,")], false⟩⟩ := by
  have h := stream_status_evicts sampleEnv sampleConfig unauthorizedRun "id" 1 sampleStreamState
    sampleRequest _ "user," [] ⟨401, "", false⟩ [] rfl rfl rfl (by simp) (Or.inr rfl)
    (by simp [sampleStreamState])
  exact ⟨(h.2.1 rfl).trans (by decide), h.1⟩

theorem aggregate_sseLoop_notAuthenticated (env : Env) (cfg : Config)
    (req : OpenAIChatCompletionRequest) (now : Time) (cookie jsonData : String)
    (chan : List SSEResponse) (h : endsOnDone env (isNotAuthenticated env) chan)
    (acc : String) (st : Store) (out : List ClientWrite) :
    handleNonStreamRequest.sseLoop env cfg req now cookie jsonData chan acc st out =
      (.retry, st, out) := by
  obtain ⟨pre, d, post, rfl, hpre, hd, hne, hp⟩ := h
  rw [aggregate_sseLoop_passes env cfg req now cookie jsonData pre _ hpre]
  simp only [isNotAuthenticated, Bool.and_eq_true, Bool.not_eq_true'] at hp
  obtain ⟨⟨h1, h2⟩, h3⟩ := hp
  simp [handleNonStreamRequest.sseLoop, hne, hd, h1, h2, h3]

/-- C12 as stated fails in the streaming handler: a done event whose data is
classified as not authenticated and whose transport status is 401 is handled
by the status check, before the classification; the credential is removed from
the list, and a request whose two attempts end so leaves the list empty. -/
theorem unauthorized_login_evicts :
    isNotAuthenticated sampleEnv "login" = true ∧
      handleStreamRequest.attempts sampleEnv sampleConfig loginUnauthorizedRun "id" 2
          sampleStreamState =
        handleStreamRequest.attempts sampleEnv sampleConfig loginUnauthorizedRun "id" 1
          ⟨"b", ⟨["a", "b"], 1⟩, sampleRequest,
            ⟨⟨["b"], fun _ => none⟩, [], [("a", "user,")], false⟩⟩ ∧
      sampleStore.RVCookies = ["a", "b"] ∧
      (handleStreamRequest sampleEnv sampleConfig loginUnauthorizedRun sampleRequest
        sampleStore).store.RVCookies = [] := by
  refine ⟨rfl, rfl, rfl, rfl⟩

/-- C12, amended: when the done event of an attempt is classified as not
authenticated, the attempt loop continues with the next credential of the view
and with the store the attempt started from: in the aggregate handler for
every such done event, in the streaming handler for every such done event
whose transport status is neither 403 nor 401 (an item with one of these
statuses is handled before the classification). -/
theorem not_authenticated_advances (env : Env) (cfg : Config) (run : Run) :
    (∀ (remaining : Nat) (cookie : String) (cm : CookieManager)
        (req req' : OpenAIChatCompletionRequest) (o : Outcome) (b : Json) (jsonData : String)
        (chan : List SSEResponse),
        createRequestBody env cfg req = .ok (b, req') →
        env.MarshalBody b = .ok jsonData →
        run.DoSSE o.requests.length = .ok chan →
        endsOnDone env (isNotAuthenticated env) chan →
        cm.Cookies ≠ [] →
        handleNonStreamRequest.attempts env cfg run (remaining + 1) cookie cm req o =
          handleNonStreamRequest.attempts env cfg run remaining (nextCookie cm) (nextManager cm)
            req' ⟨o.store, o.writes, o.requests ++ [(cookie, jsonData)], o.panicked⟩) ∧
    (∀ (responseId : String) (remaining : Nat) (s : StreamState)
        (req' : OpenAIChatCompletionRequest) (b : Json) (jsonData : String)
        (pre : List SSEResponse) (d : SSEResponse) (post : List SSEResponse),
        createRequestBody env cfg s.openAIReq = .ok (b, req') →
        env.MarshalBody b = .ok jsonData →
        run.DoSSE s.out.requests.length = .ok (pre ++ d :: post) →
        (∀ x ∈ pre, streamPassesOver env (run.clock s.out.requests.length) responseId
          req'.Model jsonData x) →
        d.Status ≠ 403 → d.Status ≠ 401 → d.Done = true → d.Data ≠ "" →
        isNotAuthenticated env d.Data = true →
        s.cookieManager.Cookies ≠ [] →
        handleStreamRequest.attempts env cfg run responseId (remaining + 1) s =
          handleStreamRequest.attempts env cfg run responseId remaining
            ⟨nextCookie s.cookieManager, nextManager s.cookieManager, req',
              ⟨s.out.store,
                s.out.writes ++ streamWrites env (run.clock s.out.requests.length) responseId
                  req'.Model jsonData pre,
                s.out.requests ++ [(s.cookie, jsonData)], s.out.panicked⟩⟩) := by
  constructor
  · intro remaining cookie cm req req' o b jsonData chan hbody hmarshal hchan hend hview
    exact aggregate_attempts_next env cfg run remaining cookie cm req req' o b jsonData chan _ _
      hbody hmarshal hchan
      (aggregate_sseLoop_notAuthenticated env cfg req' _ cookie jsonData chan hend _ _ _) hview
  · intro responseId remaining s req' b jsonData pre d post hbody hmarshal hchan hpre h403 h401
      hdone hne hp hview
    refine stream_attempts_retry env cfg run responseId remaining s req' b jsonData _ _ _
      hbody hmarshal hchan ?_ hview
    rw [stream_sseLoop_passes env cfg req' _ _ responseId jsonData pre _ hpre]
    simp only [isNotAuthenticated, Bool.and_eq_true, Bool.not_eq_true'] at hp
    obtain ⟨⟨h1, h2⟩, h3⟩ := hp
    simp [handleStreamRequest.sseLoop, h403, h401, hne, hdone, h1, h2, h3]

theorem not_authenticated_advances_witness :
    handleNonStreamRequest.attempts sampleEnv sampleConfig loginRun 2 "a" ⟨["a", "b"], 0⟩
        sampleRequest ⟨sampleStore, [], [], false⟩ =
      handleNonStreamRequest.attempts sampleEnv sampleConfig loginRun 1 "b" ⟨["a", "b"], 1⟩
        sampleRequest ⟨sampleStore, [], [("a", "user,")], false⟩ ∧
    handleStreamRequest.attempts sampleEnv sampleConfig loginRun "id" 2 sampleStreamState =
      handleStreamRequest.attempts sampleEnv sampleConfig loginRun "id" 1
        ⟨"b", ⟨["a", "b"], 1⟩, sampleRequest, ⟨sampleStore, [], [("a", "user,")], false⟩⟩ := by
  have h := not_authenticated_advances sampleEnv sampleConfig loginRun
  constructor
  · exact h.1 1 "a" ⟨["a", "b"], 0⟩ sampleRequest sampleRequest ⟨sampleStore, [], [], false⟩ _
      "user," [⟨200, "login", true⟩] rfl rfl rfl
      ⟨[], ⟨200, "login", true⟩, [], rfl, by simp, rfl, by decide, by decide⟩ (by simp)
  · exact h.2 "id" 1 sampleStreamState sampleRequest _ "user," [] ⟨200, "login", true⟩ [] rfl rfl
      rfl (by simp) (by decide) (by decide) rfl (by decide) (by decide)
      (by simp [sampleStreamState])

/-! ## Deltas, the sentinel and undecodable frames -/

/-- When the content array starts with a text item, the streaming extractor
forwards that item and returns, whatever follows it in the array. -/
theorem processStreamData_items_first (env : Env) (now : Time)
    (responseId modelName jsonData a j : String) (more : List Json)
    (hj : env.MarshalResponse
      (createStreamResponse env now responseId modelName jsonData ⟨a, "assistant"⟩ none) = .ok j) :
    processStreamData.items env now responseId modelName jsonData (textItem a :: more) =
      ⟨a, true, [.sse (" " ++ j)]⟩ := by
  simp [processStreamData.items, textItem, mapGet, asString, handleDelta, sendSSEvent, hj]

/-- C16 at a frame whose content array holds the text items `Hel` and `lo`: the
streaming extractor forwards and returns `Hel` only, where the aggregate
extractor returns `Hello`. -/
theorem stream_forwards_first_text_only :
    processStreamData pairEnv 1000 "data: pair" "id" "m" "body" =
        .ok ⟨"Hel", true, [.sse " Hel|"]⟩ ∧
      processNoStreamData pairEnv "data: pair" = .ok ⟨"Hello", true, []⟩ := by
  exact ⟨rfl, rfl⟩

/-- C17 at the frames `data: text:Hel`, `data: [DONE]`: the streaming handler
ends the request on the sentinel with nothing written after the delta, neither
the final chunk nor the payload ` [DONE]`. On finish reason `end_turn` in place
of the sentinel it writes both, and the aggregate handler finalises the same
two frames with the HTTP 200 completion `Hel`, finish reason `stop`. -/
theorem done_sentinel_writes_no_marker :
    (handleStreamRequest sampleEnv sampleConfig doneRun sampleRequest sampleStore).writes =
        [.sse " Hel|"] ∧
      (handleStreamRequest sampleEnv sampleConfig endTurnRun sampleRequest sampleStore).writes =
        [.sse " Hel|", .sse " |stop", .sse " [DONE]"] ∧
      (handleNonStreamRequest sampleEnv sampleConfig doneRun sampleRequest sampleStore).writes =
        [.json 200 (.completion ⟨"chatcmpl-20250101000000", "chat.completion", 1000,
          "anthropic:claude-sonnet-4@20250514",
          [⟨0, ⟨"assistant", "Hel"⟩, some "stop", ⟨"", ""⟩⟩], ⟨5, 3, 8⟩⟩)] := by
  exact ⟨rfl, rfl, rfl⟩

theorem handleMessageResult_marker (env : Env) (now : Time)
    (responseId modelName jsonData j : String)
    (hj : env.MarshalResponse (finalChunk now responseId modelName) = .ok j) :
    handleMessageResult env now responseId modelName jsonData =
      [.sse (" " ++ j), .sse " [DONE]"] := by
  have hc : ({ createStreamResponse env now responseId modelName jsonData ⟨"", "assistant"⟩
      (some "stop") with Usage := ⟨0, 0, 0 + 0⟩ } : OpenAIChatCompletionResponse) =
      finalChunk now responseId modelName := rfl
  simp only [handleMessageResult, hc, sendSSEvent, hj]
  rfl

/-- The two ways the streaming loop ends on a plain item (status neither 403
nor 401, data not empty, not a done event): on the sentinel `[DONE]` it returns
with nothing written for the frame, on a first choice with finish reason
`end_turn` it returns after the writes of `handleMessageResult`. -/
theorem stream_terminal_frames (env : Env) (cfg : Config)
    (req : OpenAIChatCompletionRequest) (now : Time) (cookie responseId jsonData : String)
    (r : SSEResponse) (rest : List SSEResponse) (st : Store) (out : List ClientWrite)
    (h403 : r.Status ≠ 403) (h401 : r.Status ≠ 401) (hdata : r.Data ≠ "")
    (hdone : r.Done = false) :
    (TrimPrefix (TrimSpace r.Data) "data: " = "[DONE]" →
      handleStreamRequest.sseLoop env cfg req now cookie responseId jsonData (r :: rest) st out =
        (.returned, st, out)) ∧
    (∀ (event payload choice : List (String × Json)) (more : List Json) (j : String),
      TrimPrefix (TrimSpace r.Data) "data: " ≠ "[DONE]" →
      env.UnmarshalEvent (TrimPrefix (TrimSpace r.Data) "data: ") = .ok event →
      asMap (mapGet event "response_payload") = some payload →
      asSlice (mapGet payload "choices") = some (.obj choice :: more) →
      mapGet choice "finish_reason" = some (.str "end_turn") →
      env.MarshalResponse (finalChunk now responseId req.Model) = .ok j →
      handleStreamRequest.sseLoop env cfg req now cookie responseId jsonData (r :: rest) st out =
        (.returned, st, out ++ [.sse (" " ++ j), .sse " [DONE]"])) := by
  constructor
  · intro hframe
    simp [handleStreamRequest.sseLoop, h403, h401, hdata, hdone, processStreamData, hframe]
  · intro event payload choice more j hframe hdec hpayload hchoices hfin hj
    have hp : processStreamData env now r.Data responseId req.Model jsonData =
        .ok ⟨"", false, [.sse (" " ++ j), .sse " [DONE]"]⟩ := by
      unfold processStreamData
      simp only [hframe, if_false, hdec, hpayload, hchoices, hfin, isEndTurn, beq_self_eq_true,
        handleMessageResult_marker env now responseId req.Model jsonData j hj]
    simp [handleStreamRequest.sseLoop, h403, h401, hdata, hdone, hp]

theorem stream_terminal_frames_witness :
    handleStreamRequest.sseLoop sampleEnv sampleConfig sampleRequest 1000 "a" "id" "user,"
        [⟨200, "data: [DONE]", false⟩] sampleStore [.sse " Hel|"] =
      (.returned, sampleStore, [.sse " Hel|"]) ∧
    handleStreamRequest.sseLoop sampleEnv sampleConfig sampleRequest 1000 "a" "id" "user,"
        [⟨200, "data: end", false⟩] sampleStore [.sse " Hel|"] =
      (.returned, sampleStore, [.sse " Hel|"] ++ [.sse (" " ++ "|stop"), .sse " [DONE]"]) := by
  constructor
  · exact (stream_terminal_frames sampleEnv sampleConfig sampleRequest 1000 "a" "id" "user,"
      ⟨200, "data: [DONE]", false⟩ [] sampleStore [.sse " Hel|"] (by decide) (by decide)
      (by decide) rfl).1 (by decide)
  · exact (stream_terminal_frames sampleEnv sampleConfig sampleRequest 1000 "a" "id" "user,"
      ⟨200, "data: end", false⟩ [] sampleStore [.sse " Hel|"] (by decide) (by decide)
      (by decide) rfl).2
      [("response_payload", .obj [("choices", .arr [.obj [("finish_reason", .str "end_turn")]])])]
      [("choices", .arr [.obj [("finish_reason", .str "end_turn")]])]
      [("finish_reason", .str "end_turn")] [] "|stop" (by decide) rfl rfl rfl rfl rfl

/-- In the aggregate loop a plain frame that does not decode draws the HTTP 500
of the extractor and then the HTTP 200 completion of the handler. -/
theorem aggregate_sseLoop_undecodable (env : Env) (cfg : Config)
    (req : OpenAIChatCompletionRequest) (now : Time) (cookie jsonData err : String)
    (r : SSEResponse) (rest : List SSEResponse) (acc : String) (st : Store)
    (out : List ClientWrite) (hdata : r.Data ≠ "") (hdone : r.Done = false)
    (hframe : TrimPrefix (TrimSpace r.Data) "data: " ≠ "[DONE]")
    (hdec : env.UnmarshalEvent (TrimPrefix (TrimSpace r.Data) "data: ") = .error err) :
    handleNonStreamRequest.sseLoop env cfg req now cookie jsonData (r :: rest) acc st out =
      (.returned, st, out ++ [.json 500 (.error err),
        .json 200 (.completion (completionResponse env now req jsonData acc))]) := by
  simp [handleNonStreamRequest.sseLoop, hdata, hdone, processNoStreamData, hframe, hdec]

/-- In the streaming loop a plain frame that does not decode draws the HTTP 500
of the extractor and ends the request. -/
theorem stream_sseLoop_undecodable (env : Env) (cfg : Config)
    (req : OpenAIChatCompletionRequest) (now : Time) (cookie responseId jsonData err : String)
    (r : SSEResponse) (rest : List SSEResponse) (st : Store) (out : List ClientWrite)
    (h403 : r.Status ≠ 403) (h401 : r.Status ≠ 401) (hdata : r.Data ≠ "")
    (hdone : r.Done = false)
    (hframe : TrimPrefix (TrimSpace r.Data) "data: " ≠ "[DONE]")
    (hdec : env.UnmarshalEvent (TrimPrefix (TrimSpace r.Data) "data: ") = .error err) :
    handleStreamRequest.sseLoop env cfg req now cookie responseId jsonData (r :: rest) st out =
      (.returned, st, out ++ [.json 500 (.error err)]) := by
  simp [handleStreamRequest.sseLoop, h403, h401, hdata, hdone, processStreamData, hframe, hdec]

/-- C18 at a frame that does not decode, after the delta `Hel`: the aggregate
handler writes the HTTP 500 and then an HTTP 200 completion with the content
`Hel`; the streaming handler ends on the HTTP 500. -/
theorem undecodable_frame_also_completes :
    (handleNonStreamRequest sampleEnv sampleConfig garbledRun sampleRequest sampleStore).writes =
        [.json 500 (.error "invalid character"),
         .json 200 (.completion ⟨"chatcmpl-20250101000000", "chat.completion", 1000,
          "anthropic:claude-sonnet-4@20250514",
          [⟨0, ⟨"assistant", "Hel"⟩, some "stop", ⟨"", ""⟩⟩], ⟨5, 3, 8⟩⟩)] ∧
      (handleStreamRequest sampleEnv sampleConfig garbledRun sampleRequest sampleStore).writes =
        [.sse " Hel|", .json 500 (.error "invalid character")] := by
  exact ⟨rfl, rfl⟩

/-! ## Model identifiers -/

theorem splitChars_ne_nil (sep : Char) (cs : List Char) : splitChars sep cs ≠ [] := by
  cases cs with
  | nil => simp [splitChars]
  | cons c cs =>
    simp only [splitChars]
    split
    · simp
    · split <;> simp

theorem splitChars_no_sep (sep : Char) (cs : List Char) (h : sep ∉ cs) :
    splitChars sep cs = [cs] := by
  induction cs with
  | nil => rfl
  | cons c cs ih =>
    have hc : c ≠ sep := fun e => h (by simp [e])
    have hcs : sep ∉ cs := fun e => h (List.mem_cons_of_mem _ e)
    simp [splitChars, hc, ih hcs]

theorem splitChars_first (sep : Char) (p m : List Char) (h : sep ∉ p) :
    splitChars sep (p ++ sep :: m) = p :: splitChars sep m := by
  induction p with
  | nil => simp [splitChars]
  | cons c cs ih =>
    have hc : c ≠ sep := fun e => h (by simp [e])
    have hcs : sep ∉ cs := fun e => h (List.mem_cons_of_mem _ e)
    simp [splitChars, hc, ih hcs]

/-- The characters of the parts of `splitChars`, put together again with the
separator between them, are the characters that were split. -/
theorem splitChars_glue (sep : Char) (cs : List Char) :
    ∃ p ps, splitChars sep cs = p :: ps ∧
      p ++ ps.foldr (fun a r => sep :: (a ++ r)) [] = cs := by
  induction cs with
  | nil => exact ⟨[], [], rfl, rfl⟩
  | cons c cs ih =>
    obtain ⟨p, ps, hsplit, hglue⟩ := ih
    by_cases hc : c = sep
    · refine ⟨[], p :: ps, by simp [splitChars, hc, hsplit], ?_⟩
      simp [hglue, hc]
    · refine ⟨c :: p, ps, by simp [splitChars, hc, hsplit], ?_⟩
      simp [hglue]

theorem intercalate_go_data (sep : String) (l : List String) :
    ∀ acc : String,
      (String.intercalate.go acc sep l).data =
        acc.data ++ l.foldr (fun a r => sep.data ++ (a.data ++ r)) [] := by
  induction l with
  | nil => intro acc; simp [String.intercalate.go]
  | cons a as ih =>
    intro acc
    simp [String.intercalate.go, ih, String.data_append, List.append_assoc]

theorem Join_Split_colon (m : String) : Join (Split m ':') ":" = m := by
  have hfold : ∀ ps : List (List Char),
      List.foldr (fun a r => ":".data ++ (a.data ++ r)) [] (ps.map String.mk) =
        List.foldr (fun a r => ':' :: (a ++ r)) [] ps := by
    intro ps
    induction ps with
    | nil => rfl
    | cons a as ih =>
      simp only [List.map_cons, List.foldr_cons, ih]
      rfl
  obtain ⟨p, ps, hsplit, hglue⟩ := splitChars_glue ':' m.data
  apply String.ext
  simp only [Join, Split, hsplit, List.map_cons, String.intercalate, intercalate_go_data, hfold]
  exact hglue

/-- C21: `transformModelId` drops a provider prefix that holds no `:` together
with the `:` after it, whatever the rest holds, and returns an identifier
without `:` unchanged. -/
theorem transformModelId_drops_provider :
    (∀ p m : String, ':' ∉ p.data → transformModelId (p ++ ":" ++ m) = m) ∧
      (∀ s : String, ':' ∉ s.data → transformModelId s = s) := by
  constructor
  · intro p m hp
    have hdata : (p ++ ":" ++ m).data = p.data ++ ':' :: m.data := by
      simp [String.data_append]
    have hsplit : Split (p ++ ":" ++ m) ':' = p :: Split m ':' := by
      simp [Split, hdata, splitChars_first ':' _ _ hp]
    have hlen : (Split m ':').length ≠ 0 := by
      simp [Split, splitChars_ne_nil]
    simp only [transformModelId, hsplit, List.length_cons, List.drop_succ_cons, List.drop_zero]
    rw [if_pos (by omega)]
    exact Join_Split_colon m
  · intro s hs
    simp [transformModelId, Split, splitChars_no_sep ':' _ hs]

theorem transformModelId_drops_provider_witness :
    transformModelId "bedrock:anthropic.claude-3-5-sonnet-20241022-v2:0" =
        "anthropic.claude-3-5-sonnet-20241022-v2:0" ∧
      transformModelId "gpt-4" = "gpt-4" :=
  ⟨transformModelId_drops_provider.1 "bedrock" "anthropic.claude-3-5-sonnet-20241022-v2:0"
      (by decide),
    transformModelId_drops_provider.2 "gpt-4" (by decide)⟩

/-! ## Type assertions in the frame extractors -/

theorem isEndTurn_panics (v : Json) (hnull : v ≠ .null) (hstr : ∀ s, v ≠ .str s) :
    isEndTurn (some v) = .error "interface conversion: interface {} is not string" := by
  cases v with
  | null => exact absurd rfl hnull
  | str s => exact absurd rfl (hstr s)
  | bool b => rfl
  | num q => rfl
  | arr xs => rfl
  | obj kvs => rfl

/-- For every frame that decodes to an object whose first choice carries a
finish reason that is present, not null and not a string, both extractors end
in the panic of the one-result type assertion. -/
theorem extractors_panic (env : Env) (now : Time) (data responseId modelName jsonData : String)
    (event payload choice : List (String × Json)) (more : List Json) (v : Json)
    (hframe : TrimPrefix (TrimSpace data) "data: " ≠ "[DONE]")
    (hdec : env.UnmarshalEvent (TrimPrefix (TrimSpace data) "data: ") = .ok event)
    (hpayload : asMap (mapGet event "response_payload") = some payload)
    (hchoices : asSlice (mapGet payload "choices") = some (.obj choice :: more))
    (hfin : mapGet choice "finish_reason" = some v)
    (hnull : v ≠ .null) (hstr : ∀ s, v ≠ .str s) :
    processNoStreamData env data =
        .error "interface conversion: interface {} is not string" ∧
      processStreamData env now data responseId modelName jsonData =
        .error "interface conversion: interface {} is not string" := by
  constructor
  · unfold processNoStreamData
    simp only [hframe, if_false, hdec, hpayload, hchoices, hfin, isEndTurn_panics v hnull hstr]
  · unfold processStreamData
    simp only [hframe, if_false, hdec, hpayload, hchoices, hfin, isEndTurn_panics v hnull hstr]

/-- When the finish reason of the first choice is absent, null or a string,
both extractors return a pair. -/
theorem extractors_return (env : Env) (now : Time) (data responseId modelName jsonData : String)
    (hfin : ∀ event payload choice more v,
      env.UnmarshalEvent (TrimPrefix (TrimSpace data) "data: ") = .ok event →
      asMap (mapGet event "response_payload") = some payload →
      asSlice (mapGet payload "choices") = some (.obj choice :: more) →
      mapGet choice "finish_reason" = some v → v = .null ∨ ∃ s, v = .str s) :
    (∃ e, processNoStreamData env data = .ok e) ∧
      ∃ e, processStreamData env now data responseId modelName jsonData = .ok e := by
  have hend : ∀ event payload choice more,
      env.UnmarshalEvent (TrimPrefix (TrimSpace data) "data: ") = .ok event →
      asMap (mapGet event "response_payload") = some payload →
      asSlice (mapGet payload "choices") = some (.obj choice :: more) →
      ∃ b, isEndTurn (mapGet choice "finish_reason") = .ok b := by
    intro event payload choice more h1 h2 h3
    cases hv : mapGet choice "finish_reason" with
    | none => exact ⟨false, rfl⟩
    | some v =>
      rcases hfin event payload choice more v h1 h2 h3 hv with rfl | ⟨s, rfl⟩
      · exact ⟨false, rfl⟩
      · exact ⟨s == "end_turn", rfl⟩
  constructor
  · unfold processNoStreamData
    simp only
    repeat' split
    all_goals first
      | exact ⟨_, rfl⟩
      | (rename_i h1 _ _ h2 _ _ _ h3 _ _ h4
         obtain ⟨b, hb⟩ := hend _ _ _ _ h1 h2 h3
         rw [hb] at h4
         cases h4)
  · unfold processStreamData
    simp only
    repeat' split
    all_goals first
      | exact ⟨_, rfl⟩
      | (rename_i h1 _ _ h2 _ _ _ h3 _ _ h4
         obtain ⟨b, hb⟩ := hend _ _ _ _ h1 h2 h3
         rw [hb] at h4
         cases h4)

/-- C23 at a frame that decodes to an object whose first choice has the number
1 as finish reason: both extractors abort on the type assertion, and so do the
handlers that call them. -/
theorem non_string_finish_reason_panics :
    processNoStreamData numberEnv "data: num" =
        .error "interface conversion: interface {} is not string" ∧
      processStreamData numberEnv 1000 "data: num" "id" "m" "body" =
        .error "interface conversion: interface {} is not string" ∧
      (handleNonStreamRequest numberEnv sampleConfig numberRun sampleRequest
        sampleStore).panicked = true ∧
      (handleStreamRequest numberEnv sampleConfig numberRun sampleRequest
        sampleStore).panicked = true := by
  exact ⟨rfl, rfl, rfl, rfl⟩

end Rovo2api
